import Mathlib

/-!
Shallow embedding of the `alma_bulk_tools` acquisition/extraction/indexing
pipeline (Python) into Lean 4, together with theorems settling the frozen
claims about its specification.

Conventions of the embedding:
* Python strings are Lean `String`s; `str.startswith` / `str.endswith` are
  modelled as (de)prefix tests on the character list `String.data`,
  `str.strip()` as `String.trim`, `str.upper()/lower()` as
  `String.toUpper/toLower`, `str.split(sep)` as `String.split`.
* Python `set[str]` values are modelled as duplicate-free `List String`
  with membership-preserving insert/discard operations.
* The filesystem is passed explicitly (a lookup function or a list of
  present paths); wall-clock timestamps are passed as an explicit `now`
  argument; network transfers are an explicit oracle from attempt number
  to outcome.
* Fallible operations return `Option`/`Except` or record an `error` field,
  mirroring the `try/except` structure of the source.
-/

namespace AlmaBulk

/-! ### Python string primitives

All of these are defined by structural recursion over the character list
`String.data`, so that every definition below evaluates inside the kernel
(Python strings are character sequences, so this is the direct model). -/

/-- Python `s.startswith(p)`: `p` is a character-prefix of `s`. -/
def py_starts_with (s p : String) : Bool :=
  p.data.isPrefixOf s.data

/-- Python `s.endswith(p)`: `p` is a character-suffix of `s`. -/
def py_ends_with (s p : String) : Bool :=
  p.data.isSuffixOf s.data

/-- Python `s.lstrip("+-")`: drop every leading `+` or `-` character. -/
def py_lstrip_plus_minus (s : String) : String :=
  ⟨s.data.dropWhile (fun c => c == '+' || c == '-')⟩

/-- Python `s.strip()`: drop whitespace from both ends. -/
def py_strip (s : String) : String :=
  ⟨((s.data.dropWhile Char.isWhitespace).reverse.dropWhile Char.isWhitespace).reverse⟩

/-- Python `s.upper()` (character-wise uppercasing). -/
def py_upper (s : String) : String :=
  ⟨s.data.map Char.toUpper⟩

/-- Python `s.lower()` (character-wise lowercasing). -/
def py_lower (s : String) : String :=
  ⟨s.data.map Char.toLower⟩

/-- Splitting a character list at every character satisfying `p`, keeping
empty pieces (the behaviour of Python `str.split` with an explicit
separator). -/
def list_split (p : Char → Bool) : List Char → List (List Char)
  | [] => [[]]
  | c :: cs =>
    match list_split p cs, p c with
    | r, true => [] :: r
    | [], false => [[c]]
    | h :: t, false => (c :: h) :: t

/-- Python `s.split(sep)` for a one-character separator given as a
predicate `p`. -/
def py_split (s : String) (p : Char → Bool) : List String :=
  (list_split p s.data).map (fun l => ⟨l⟩)

/-- Python `sep.join(pieces)`. -/
def py_join (sep : String) : List String → String
  | [] => ""
  | [x] => x
  | x :: y :: rest => x ++ sep ++ py_join sep (y :: rest)

/-- Python `s[n:]`: drop the first `n` characters. -/
def py_drop (s : String) (n : Nat) : String :=
  ⟨s.data.drop n⟩

/-- Insertion into a sorted list of strings (helper for `py_sorted`). -/
def insert_sorted (x : String) : List String → List String
  | [] => [x]
  | y :: t => if x ≤ y then x :: y :: t else y :: insert_sorted x t

/-- Python `sorted()` on a list of strings (stable insertion sort). -/
def py_sorted (l : List String) : List String :=
  l.foldr insert_sorted []

/-! ### Archive Unpacker: members, paths and safe extraction (`unpack.py`) -/

/-- The filesystem type of a tar member: directory, regular file, or a
link/special member (skipped by `_safe_extract`). -/
inductive TarKind where
  | dir : TarKind
  | file : TarKind
  | special : TarKind
deriving DecidableEq, Repr

/-- A tar archive member, reduced to the data `_safe_extract` and
`_detect_asa_prefix` consume: its path inside the archive and its kind. -/
structure TarMember where
  name : String
  kind : TarKind
deriving DecidableEq, Repr

/-- `_member_parts`: the `PurePosixPath(member_name).parts` components with
`""` and `"."` removed; an absolute member name contributes a leading
`"/"` component exactly as `PurePosixPath.parts` does. -/
def member_parts (name : String) : List String :=
  let comps := (py_split name (fun c => c = '/')).filter (fun p => p ≠ "" && p ≠ ".")
  if py_starts_with name "/" then "/" :: comps else comps

/-- `_strip_parts` from `unpack.py`: strip `strip_prefix` from the front of
`parts` when it is a literal component-prefix, otherwise leave `parts`
unchanged (an empty or absent prefix is falsy in Python and strips
nothing). -/
def strip_parts (parts : List String) : Option (List String) → List String
  | none => parts
  | some pfxL =>
    if pfxL = [] then parts
    else if pfxL.length ≤ parts.length && parts.take pfxL.length == pfxL then
      parts.drop pfxL.length
    else parts

/-- Lexical model of `pathlib.Path.resolve()` applied to `root / rel`:
`root` is an already-resolved absolute directory given by its components;
a leading `"/"` in `rel` restarts from the filesystem root, and `".."`
pops one component (the model assumes no symbolic links, which is what
resolution does on paths that do not traverse links). -/
def resolve_comps (root : List String) (rel : List String) : List String :=
  let init := if rel.headD "" = "/" then [] else root
  (rel.filter (fun p => p ≠ "/")).foldl
    (fun acc p => if p = ".." then acc.dropLast else acc ++ [p]) init

/-- `str()` of a resolved absolute path given by its components. -/
def path_str (comps : List String) : String :=
  "/" ++ py_join "/" comps

/-- The safety test of `_safe_extract`:
`str(dest).startswith(str(root))`. -/
def dest_ok (root dest : List String) : Bool :=
  py_starts_with (path_str dest) (path_str root)

/-- Result of `_safe_extract`: the resolved destination paths of the
regular files written and the directories created, in archive order, and
the message of the `ValueError` raised on an unsafe member (extraction
stops there), if any. -/
structure ExtractResult where
  written : List (List String)
  dirs : List (List String)
  error : Option String
deriving DecidableEq, Repr

/-- The member loop of `_safe_extract`, processing members in order
against the resolved target directory `root`. -/
def safe_extract_go (root : List String) (sp : Option (List String)) :
    List TarMember → ExtractResult
  | [] => ⟨[], [], none⟩
  | m :: rest =>
    let parts := strip_parts (member_parts m.name) sp
    if parts = [] then safe_extract_go root sp rest
    else
      let dest := resolve_comps root parts
      if !dest_ok root dest then
        ⟨[], [], some ("Unsafe tar member path: " ++ m.name)⟩
      else
        match m.kind with
        | TarKind.dir =>
          let r := safe_extract_go root sp rest
          ⟨r.written, dest :: r.dirs, r.error⟩
        | TarKind.file =>
          let r := safe_extract_go root sp rest
          ⟨dest :: r.written, r.dirs, r.error⟩
        | TarKind.special => safe_extract_go root sp rest

/-- `_safe_extract` from `unpack.py`, over a resolved absolute target
directory given by its components. -/
def safe_extract (members : List TarMember) (target_dir : List String)
    (sp : Option (List String)) : ExtractResult :=
  safe_extract_go target_dir sp members

/-- A member that `_safe_extract` does not reject: it is either skipped
(empty after stripping) or its resolved destination passes the
`startswith` test against the target root. -/
def member_safe (root : List String) (sp : Option (List String))
    (m : TarMember) : Prop :=
  strip_parts (member_parts m.name) sp = [] ∨
  dest_ok root (resolve_comps root (strip_parts (member_parts m.name) sp)) = true

/-- The per-member candidate computation inside `_detect_asa_prefix`:
members of depth at least 5 are tested for the 4-component
project-code-led layout, members of depth exactly 4 for the 3-component
layout, and every other member contributes nothing (`continue`). -/
def asa_candidate (parts : List String) : Option (List String) :=
  if parts.length ≥ 5 then
    if py_starts_with (parts.getD 1 "") "science_goal.uid___" &&
       py_starts_with (parts.getD 2 "") "group.uid___" &&
       py_starts_with (parts.getD 3 "") "member.uid___" then
      some (parts.take 4)
    else none
  else if parts.length ≥ 4 then
    if py_starts_with (parts.getD 0 "") "science_goal.uid___" &&
       py_starts_with (parts.getD 1 "") "group.uid___" &&
       py_starts_with (parts.getD 2 "") "member.uid___" then
      some (parts.take 3)
    else none
  else none

/-- The member loop of `_detect_asa_prefix`, carrying the `detected`
accumulator; two disagreeing candidates return `none` immediately. -/
def detect_asa_go (det : Option (List String)) :
    List TarMember → Option (List String)
  | [] => det
  | m :: rest =>
    match asa_candidate (member_parts m.name) with
    | none => detect_asa_go det rest
    | some c =>
      match det with
      | none => detect_asa_go (some c) rest
      | some d => if d = c then detect_asa_go (some d) rest else none

/-- `_detect_asa_prefix` from `unpack.py`. -/
def detect_asa_pfx (members : List TarMember) : Option (List String) :=
  detect_asa_go none members

/-- `_uid_uri_from_uid_segment` from `unpack.py`. -/
def uid_uri_from_uid_segment (segment : String) : Option String :=
  let token := py_strip segment
  let token := if py_starts_with token "uid___" then py_drop token 6 else token
  match py_split token (fun c => c = '_') with
  | p0 :: p1 :: p2 :: rest =>
    some ("uid://" ++ p0 ++ "/" ++ p1 ++ "/" ++ py_join "_" (p2 :: rest))
  | _ => none

/-- Python `component.split(".", 1)[1]`: everything after the first dot. -/
def after_first_dot (s : String) : String :=
  py_join "." ((py_split s (fun c => c = '.')).drop 1)

/-- `_uid_from_component` from `unpack.py`. -/
def uid_from_component (component : String) (pfx : String) : Option String :=
  if !py_starts_with component (pfx ++ ".") then none
  else uid_uri_from_uid_segment (after_first_dot component)

/-- The unit-identifier fields of a manifest that the strip-prefix
backfill of `unpack_mous_delivered` touches. `none` models a missing or
JSON-`null` field; `some ""` models an empty string (both are falsy). -/
structure ManifestIds where
  science_goal_uid : Option String
  group_ous_uid : Option String
  mous_uid : Option String
deriving DecidableEq, Repr

/-- Python truthiness of `manifest.get(key)` for a string field. -/
def opt_truthy : Option String → Bool
  | none => false
  | some s => s ≠ ""

/-- Python `str()` of an optional string field (`str(None) = "None"`). -/
def py_str_of_opt : Option String → String
  | none => "None"
  | some s => s

/-- The `(sg, group, member)` component split of a detected strip prefix
(`unpack.py` lines 326-339). -/
def strip_pfx_components (sp : List String) : String × String × String :=
  if sp.length = 4 then (sp.getD 1 "", sp.getD 2 "", sp.getD 3 "")
  else if sp.length = 3 then (sp.getD 0 "", sp.getD 1 "", sp.getD 2 "")
  else ("", "", "")

/-- The UID backfill of `unpack_mous_delivered` (`unpack.py` lines
341-353), applied when a strip prefix was detected. -/
def backfill_uids (ids : ManifestIds) (sp : List String) : ManifestIds :=
  let comps := strip_pfx_components sp
  let sg_c := comps.1
  let group_c := comps.2.1
  let member_c := comps.2.2
  let sg_uid := if sg_c ≠ "" then uid_from_component sg_c "science_goal" else none
  let group_uid := if group_c ≠ "" then uid_from_component group_c "group" else none
  let member_uid := if member_c ≠ "" then uid_from_component member_c "member" else none
  let ids1 :=
    match sg_uid with
    | some u =>
      if !opt_truthy ids.science_goal_uid ||
         py_ends_with (py_str_of_opt ids.science_goal_uid) "unknown" then
        { ids with science_goal_uid := some u }
      else ids
    | none => ids
  let ids2 :=
    match group_uid with
    | some u =>
      if !opt_truthy ids1.group_ous_uid then { ids1 with group_ous_uid := some u }
      else ids1
    | none => ids1
  match member_uid with
  | some u =>
    if !opt_truthy ids2.mous_uid then { ids2 with mous_uid := some u } else ids2
  | none => ids2

/-! ### Download Manager: artifact-kind selection (`downloader.py`) -/

/-- `DEFAULT_ARTIFACT_KINDS` from `downloader.py`. -/
def DEFAULT_ARTIFACT_KINDS : List String :=
  ["calibration", "scripts", "weblog", "qa_reports", "auxiliary", "readme",
   "calibration_products"]

/-- `ALL_NONIMAGE_KINDS` from `downloader.py`. -/
def ALL_NONIMAGE_KINDS : List String :=
  ["calibration", "scripts", "weblog", "qa_reports", "auxiliary", "readme",
   "raw", "other"]

/-- `_normalize_kind`: strip whitespace and lowercase. -/
def normalize_kind (kind : String) : String :=
  py_lower (py_strip kind)

/-- `set.add` on the duplicate-free list model of a Python `set[str]`. -/
def sel_add (sel : List String) (k : String) : List String :=
  if k ∈ sel then sel else sel ++ [k]

/-- `set.discard` on the duplicate-free list model of a Python `set[str]`. -/
def sel_discard (sel : List String) (k : String) : List String :=
  sel.filter (fun x => x ≠ k)

/-- `set.update` on the duplicate-free list model of a Python `set[str]`. -/
def sel_update (sel : List String) (ks : List String) : List String :=
  ks.foldl sel_add sel

/-- One iteration of the token loop in `resolve_artifact_selection`. -/
def selection_step (sel : List String) (token : String) : List String :=
  let token_norm := normalize_kind (py_lstrip_plus_minus token)
  if token = "default" then sel_update sel DEFAULT_ARTIFACT_KINDS
  else if token = "all-nonimage" then sel_update sel ALL_NONIMAGE_KINDS
  else if py_starts_with token "+" then sel_add sel token_norm
  else if py_starts_with token "-" then sel_discard sel token_norm
  else sel_add sel token_norm

/-- The comma-split, stripped, non-empty tokens of a selection spec
(`[s.strip() for s in spec.split(",") if s.strip()]` after the
`default` fallbacks). -/
def selection_tokens (spec : String) : List String :=
  let s0 := if spec = "" then "default" else spec
  let s1 := py_strip s0
  let s2 := if s1 = "" then "default" else s1
  ((py_split s2 (fun c => c = ',')).map py_strip).filter (fun t => t ≠ "")

/-- `resolve_artifact_selection` from `downloader.py`. -/
def resolve_artifact_selection (spec : String) : List String :=
  let selected := (selection_tokens spec).foldl selection_step []
  if selected = [] then sel_update selected DEFAULT_ARTIFACT_KINDS
  else selected

/-! ### Download Manager: manifest, missing-artifact selection and
transfers (`downloader.py`)

The local filesystem under the delivery directory is passed as
`fs : String → Option Nat`, mapping an artifact filename to the size of
the local file of that name when it exists. Wall-clock time is the
explicit `now` argument. -/

/-- The fields of `models.ArtifactInfo` that `download_for_record`
consumes. -/
structure ArtifactInfo where
  kind : String
  url : String
  filename : String
  semantics : Option String
  size_bytes : Option Nat
  checksum : Option String
  description : Option String
deriving DecidableEq, Repr

/-- One artifact entry of the per-unit manifest: the keys the Download
Manager and Unpacker read or write, plus `rest` for any further keys of
the JSON object (never touched by the modelled code paths). `none`
models a missing key or JSON `null`. -/
structure ArtifactEntry where
  kind : String
  filename : String
  url : Option String
  local_path : Option String
  size_bytes : Option Nat
  checksum : Option String
  status : Option String
  downloaded_at : Option String
  updated_at : Option String
  error : Option String
  semantics : Option String
  description : Option String
  archive_removed_after_unpack : Option Bool
  unpacked_to : Option String
  rest : List (String × String)
deriving DecidableEq, Repr, Inhabited

/-- One entry of the manifest's `history` list, reduced to the fields the
download events carry. -/
structure HistoryEvent where
  timestamp : String
  event : String
  message : Option String
  selected_kinds : List String
  downloaded : Option Nat
deriving DecidableEq, Repr

/-- The manifest fields `download_for_record` touches after reading:
artifact entries, the history log, and the document-level `updated_at`
stamp written by `_save_manifest`. -/
structure ManifestDoc where
  artifacts : List ArtifactEntry
  history : List HistoryEvent
  updated_at : Option String
deriving DecidableEq, Repr

/-- `_entry_lookup` from `downloader.py`: the first artifact entry with
the given filename. -/
def entry_lookup (arts : List ArtifactEntry) (filename : String) :
    Option ArtifactEntry :=
  arts.find? (fun e => e.filename == filename)

/-- In-place mutation of the first entry with the given filename (the
Python code mutates the dict returned by `_entry_lookup`). -/
def update_first (arts : List ArtifactEntry) (filename : String)
    (f : ArtifactEntry → ArtifactEntry) : List ArtifactEntry :=
  match arts with
  | [] => []
  | e :: restl =>
    if e.filename = filename then f e :: restl
    else e :: update_first restl filename f

/-- `_artifact_exists` from `downloader.py`: the local file exists and,
when an expected size is known, has exactly that size; with no expected
size, bare existence suffices. -/
def artifact_exists (fs : String → Option Nat) (filename : String)
    (expected_size : Option Nat) : Bool :=
  match fs filename with
  | none => false
  | some sz =>
    match expected_size with
    | none => true
    | some e => sz == e

/-- `_artifact_satisfied_without_archive_file` from `downloader.py`. -/
def artifact_satisfied_without_archive_file : Option ArtifactEntry → Bool
  | none => false
  | some e =>
    (e.archive_removed_after_unpack.getD false) && opt_truthy e.unpacked_to

/-- `_artifact_selected` from `downloader.py`. -/
def artifact_selected (kind : String) (selected_kinds : List String) : Bool :=
  normalize_kind kind ∈ selected_kinds

/-- The mutation applied to an existing entry of a satisfied artifact
(`downloader.py` lines 367-372). -/
def mark_present (art : ArtifactInfo) (fs : String → Option Nat)
    (now : String) (e : ArtifactEntry) : ArtifactEntry :=
  { e with
    status := some "present"
    kind := normalize_kind art.kind
    size_bytes := match fs art.filename with
      | some sz => some sz
      | none => e.size_bytes
    updated_at := some now }

/-- The fresh entry appended for a satisfied artifact with no existing
entry (`downloader.py` lines 374-388). -/
def new_present_entry (art : ArtifactInfo) (fs : String → Option Nat)
    (now delivered_dir : String) : ArtifactEntry :=
  { kind := normalize_kind art.kind
    filename := art.filename
    url := some art.url
    local_path := some (delivered_dir ++ "/" ++ art.filename)
    size_bytes := fs art.filename
    checksum := none
    status := some "present"
    downloaded_at := some now
    updated_at := some now
    error := none
    semantics := art.semantics
    description := art.description
    archive_removed_after_unpack := none
    unpacked_to := none
    rest := [] }

/-- The body of the selection loop of `download_for_record`
(lines 361-390): one listed artifact is either skipped (not selected),
marked `present` (mutating or appending its entry), or queued into
`to_fetch`. -/
def select_step (delivered_dir : String) (fs : String → Option Nat)
    (now : String) (selected_kinds : List String)
    (acc : List ArtifactEntry × List ArtifactInfo) (art : ArtifactInfo) :
    List ArtifactEntry × List ArtifactInfo :=
  if !artifact_selected art.kind selected_kinds then acc
  else
    let existing := entry_lookup acc.1 art.filename
    if artifact_exists fs art.filename art.size_bytes ||
       artifact_satisfied_without_archive_file existing then
      match existing with
      | some _ =>
        (update_first acc.1 art.filename (mark_present art fs now), acc.2)
      | none =>
        (acc.1 ++ [new_present_entry art fs now delivered_dir], acc.2)
    else (acc.1, acc.2 ++ [art])

/-- The selection loop of `download_for_record` (lines 360-390): walks
the listed artifacts in order, marks satisfied ones `present`, and
collects the rest into `to_fetch`. -/
def select_to_fetch (delivered_dir : String) (fs : String → Option Nat)
    (now : String) (selected_kinds : List String)
    (available : List ArtifactInfo) (arts : List ArtifactEntry) :
    List ArtifactEntry × List ArtifactInfo :=
  available.foldl (select_step delivered_dir fs now selected_kinds)
    (arts, ([] : List ArtifactInfo))

/-- The history entry appended on the no-missing path
(`downloader.py` lines 393-400): selection recorded sorted. -/
def no_missing_event (now : String) (selected_kinds : List String) :
    HistoryEvent :=
  { timestamp := now
    event := "download"
    message := some "No missing artifacts for selected kinds"
    selected_kinds := py_sorted selected_kinds
    downloaded := none }

/-- `download_for_record` restricted to the path where `to_fetch` is
empty (lines 360-402): the selection loop, the single history append,
and the `_save_manifest` stamp. Only meaningful when the second
component of `select_to_fetch` is empty, which the theorems establish
from their hypotheses. -/
def download_no_missing (delivered_dir : String) (fs : String → Option Nat)
    (now : String) (selected_kinds : List String)
    (available : List ArtifactInfo) (m : ManifestDoc) : ManifestDoc :=
  let sel := select_to_fetch delivered_dir fs now selected_kinds available m.artifacts
  { artifacts := sel.1
    history := m.history ++ [no_missing_event now selected_kinds]
    updated_at := some now }

/-! ### Download Manager: the retrying transfer (`_download_one`) -/

/-- Outcome of `_download_one`: the returned `(status, error, size)`
triple together with the backoff sleeps performed between attempts, in
order. -/
structure DlResult where
  status : String
  error : Option String
  size_bytes : Option Nat
  sleeps : List Nat
deriving DecidableEq, Repr

/-- `range(1, retry_count + 1)`. -/
def attempt_list (retry_count : Nat) : List Nat :=
  (List.range retry_count).map (fun i => i + 1)

/-- The attempt loop of `_download_one`. The network is the explicit
`oracle`, mapping an attempt number to either the transferred size or
the exception message of that attempt; the optional post-success
rate-limit delay is not part of the retry backoff and is not recorded. -/
def download_one_go (oracle : Nat → Except String Nat) (retry_count : Nat) :
    List Nat → DlResult
  | [] => ⟨"error", some "retry exhausted", none, []⟩
  | attempt :: restl =>
    match oracle attempt with
    | Except.ok size => ⟨"ok", none, some size, []⟩
    | Except.error msg =>
      if attempt = retry_count then ⟨"error", some msg, none, []⟩
      else
        let r := download_one_go oracle retry_count restl
        { r with sleeps := min (2 ^ attempt) 10 :: r.sleeps }

/-- `_download_one` from `downloader.py` (attempts
`1, …, retry_count`). -/
def download_one (oracle : Nat → Except String Nat) (retry_count : Nat) :
    DlResult :=
  download_one_go oracle retry_count (attempt_list retry_count)

/-- The payload dict built for a completed transfer
(`downloader.py` lines 427-441). -/
def result_payload (art : ArtifactInfo) (local_path : String) (r : DlResult)
    (checksum : Option String) (now : String) : ArtifactEntry :=
  { kind := normalize_kind art.kind
    filename := art.filename
    url := some art.url
    local_path := some local_path
    size_bytes := r.size_bytes
    checksum := match checksum with
      | some c => some c
      | none => art.checksum
    status := some (if r.status = "ok" then "present" else "error")
    downloaded_at := if r.status = "ok" then some now else none
    updated_at := some now
    error := r.error
    semantics := art.semantics
    description := art.description
    archive_removed_after_unpack := some false
    unpacked_to := none
    rest := [] }

/-- `existing.update(payload)`: every key carried by the payload is
overwritten; keys the payload does not carry (`unpacked_to`, `rest`)
survive. -/
def apply_payload (e p : ArtifactEntry) : ArtifactEntry :=
  { p with unpacked_to := e.unpacked_to, rest := e.rest }

/-- Recording one completed transfer's payload into the artifact list
(`downloader.py` lines 442-445). -/
def apply_result (arts : List ArtifactEntry) (p : ArtifactEntry) :
    List ArtifactEntry :=
  match entry_lookup arts p.filename with
  | some _ => update_first arts p.filename (fun e => apply_payload e p)
  | none => arts ++ [p]

/-- The result loop of `download_for_record`: every completed transfer is
recorded, regardless of the status of any other transfer. -/
def apply_results (arts : List ArtifactEntry) (payloads : List ArtifactEntry) :
    List ArtifactEntry :=
  payloads.foldl apply_result arts

/-! ### Shard Index: QA-status normalization (`index_db.py`) -/

/-- A Python value in a QA-status position: `None`, a `bool`, or a string. -/
inductive QaVal where
  | vNone : QaVal
  | vBool (b : Bool) : QaVal
  | vStr (s : String) : QaVal
deriving DecidableEq, Repr

/-- Python truthiness of a `QaVal` (`None` and `""` are falsy, a `bool` is
itself, a non-empty string is truthy). -/
def qa_truthy : QaVal → Bool
  | QaVal.vNone => false
  | QaVal.vBool b => b
  | QaVal.vStr s => s ≠ ""

/-- Python `a or b` restricted to `QaVal` operands. -/
def py_or (a b : QaVal) : QaVal :=
  if qa_truthy a then a else b

/-- `_qa_status_text` from `index_db.py`. -/
def qa_status_text : QaVal → Option String
  | QaVal.vNone => none
  | QaVal.vBool b => some (if b then "PASS" else "FAIL")
  | QaVal.vStr s =>
    let text := py_upper (py_strip s)
    if text = "" then none
    else if text ∈ ["TRUE", "T", "1"] then some "PASS"
    else if text ∈ ["FALSE", "F", "0"] then some "FAIL"
    else if text ∈ ["PASS", "SEMIPASS", "FAIL", "UNKNOWN"] then some text
    else some text

/-- The `qa2_status` computation in `upsert_mous_from_summary`
(`index_db.py` lines 171-175): the summary's own field or its `qa` block
takes precedence; only when both normalize to `None` are the manifest's
`qa2_status` and then `qa2_passed` consulted. -/
def compute_qa2_status (summary_qa2 qa_block_qa2 manifest_qa2 manifest_qa2_passed : QaVal) :
    Option String :=
  match qa_status_text (py_or summary_qa2 qa_block_qa2) with
  | some s => some s
  | none =>
    match qa_status_text manifest_qa2 with
    | some s => some s
    | none => qa_status_text manifest_qa2_passed

/-! ### Shard Index: store, upsert and merge (`index_db.py`,
`index_merge.py`) -/

/-- One row of the `mous` table, keyed externally by `mous_uid`: the
non-key columns of the schema in `init_db`. -/
structure MousRow where
  project_code : Option String
  release_date : Option String
  obs_date : Option String
  band_json : Option String
  qa2_status : Option String
  qa0_status : Option String
  qa2_reasons_json : Option String
  qa0_reasons_json : Option String
  dr_intervention_suspected : Option Nat
  dr_flag_commands_count : Option Nat
  dr_manual_flag_commands_count : Option Nat
  asa_qa_present : Option Nat
  local_dir : Option String
  manifest_path : Option String
  summary_path : Option String
  discovered : Option Nat
  downloaded : Option Nat
  unpacked : Option Nat
  summarized : Option Nat
  indexed : Option Nat
  last_error_stage : Option String
  last_error_message : Option String
  shard_id : Option String
  last_seen : Option String
  last_updated : Option String
deriving DecidableEq, Repr, Inhabited

/-- One row of the `artifact` table, keyed externally by
`(mous_uid, filename)`. -/
structure ArtifactRow where
  kind : Option String
  status : Option String
  local_path : Option String
  source_url : Option String
  size_bytes : Option Nat
  checksum : Option String
  updated_at : Option String
deriving DecidableEq, Repr, Inhabited

/-- An embedded store: the three tables of `init_db`, each as an
association list over its primary key (`eb` has only key columns). -/
structure IndexDb where
  mous : List (String × MousRow)
  eb : List (String × String)
  artifact : List ((String × String) × ArtifactRow)
deriving DecidableEq, Repr, Inhabited

/-- `INSERT … ON CONFLICT(key) DO UPDATE SET <every column> = excluded.*`:
an existing row with the key is overwritten in place, otherwise the row
is appended. -/
def upsert_keyed {κ ρ : Type} [DecidableEq κ] :
    List (κ × ρ) → κ → ρ → List (κ × ρ)
  | [], key, row => [(key, row)]
  | kv :: t, key, row =>
    if kv.1 = key then (key, row) :: t
    else kv :: upsert_keyed t key row

/-- Lookup of the row stored under a key. -/
def table_lookup {κ ρ : Type} [DecidableEq κ] (tbl : List (κ × ρ)) (k : κ) :
    Option ρ :=
  (tbl.find? (fun kv => decide (kv.1 = k))).map (fun kv => kv.2)

/-- `INSERT OR REPLACE INTO eb`: the row is all key, so replacing it is
inserting it when absent. -/
def insert_eb (tbl : List (String × String)) (k : String × String) :
    List (String × String) :=
  if k ∈ tbl then tbl else tbl ++ [k]

/-- `merge_db` from `index_db.py`: re-apply every `mous`, `eb` and
`artifact` row of the source store into the target with
replace-on-conflict semantics (the source row overwrites every
column). -/
def merge_db (source target : IndexDb) : IndexDb :=
  { mous := source.mous.foldl (fun t kv => upsert_keyed t kv.1 kv.2) target.mous
    eb := source.eb.foldl insert_eb target.eb
    artifact :=
      source.artifact.foldl (fun t kv => upsert_keyed t kv.1 kv.2) target.artifact }

/-- The shard-db loop of `merge_index_from_shards` (`index_merge.py`
lines 27-36): each shard store in path order is merged into the central
store; a store that fails to open or merge (`Except.error`) is skipped
with a warning and does not stop the loop. Returns the central store and
`merged_shard_dbs`. -/
def merge_index_from_shards (central : IndexDb)
    (shards : List (Except String IndexDb)) : IndexDb × Nat :=
  shards.foldl
    (fun acc sh =>
      match sh with
      | Except.ok db => (merge_db db acc.1, acc.2 + 1)
      | Except.error _ => acc)
    (central, 0)

/-- `upsert_mous_from_summary` restricted to what the QA claims consume:
the stored row is rebuilt from the latest inputs (every column
overwritten); `base` carries the columns computed from fields other than
the QA-2 status, and the `qa2_status` column is the normalized
precedence chain of `index_db.py` lines 171-175. -/
def upsert_mous_from_summary_qa (tbl : List (String × MousRow)) (uid : String)
    (base : MousRow)
    (summary_qa2 qa_block_qa2 manifest_qa2 manifest_qa2_passed : QaVal) :
    List (String × MousRow) :=
  upsert_keyed tbl uid
    { base with
      qa2_status :=
        compute_qa2_status summary_qa2 qa_block_qa2 manifest_qa2
          manifest_qa2_passed }

/-! ### Archive Unpacker: bounded multi-pass recursive unpack
(`unpack.py` `_recursive_unpack`)

The delivered-file tree is the explicit list `files` of file paths; what
extracting an archive reveals (or the exception it raises) is the
explicit `env`. Extraction itself, including the parent-redundant
prefix stripping, is abstracted into `env`: the claims settled here are
about pass counting and archive bookkeeping, which do not depend on
where the revealed files land. -/

/-- The last path component. -/
def path_name (p : String) : String :=
  (py_split p (fun c => c = '/')).getLastD ""

/-- `_is_archive` from `unpack.py`. -/
def is_archive (path : String) : Bool :=
  let name := py_lower (path_name path)
  py_ends_with name ".tgz" || py_ends_with name ".tar.gz" ||
    py_ends_with name ".tar"

/-- The matching loop of `fnmatch.fnmatch` for the pattern language the
configured patterns use (`*` matches any run of characters, `?` any
single character, every other character itself), written with explicit
fuel so that it is structurally recursive; every recursive call shrinks
`pattern.length + s.length`, so any fuel above that bound is exact. -/
def glob_match_fuel : Nat → List Char → List Char → Bool
  | 0, _, _ => false
  | _ + 1, [], [] => true
  | n + 1, '*' :: ps, [] => glob_match_fuel n ps []
  | _ + 1, _ :: _, [] => false
  | _ + 1, [], _ :: _ => false
  | n + 1, '*' :: ps, c :: cs =>
    glob_match_fuel n ps (c :: cs) || glob_match_fuel n ('*' :: ps) cs
  | n + 1, '?' :: ps, _ :: cs => glob_match_fuel n ps cs
  | n + 1, p :: ps, c :: cs => p == c && glob_match_fuel n ps cs

/-- Glob matching of a pattern against a character list. -/
def glob_match (p s : List Char) : Bool :=
  glob_match_fuel (p.length + s.length + 1) p s

/-- `fnmatch.fnmatch(name, pattern)`. -/
def fnmatch (name pattern : String) : Bool :=
  glob_match pattern.data name.data

/-- `_matches_any_pattern` from `unpack.py` (the relative path is the
path string itself in this model). -/
def matches_any_pattern (path : String) (patterns : List String) : Bool :=
  patterns.any (fun pattern =>
    fnmatch (path_name path) pattern || fnmatch path pattern ||
    fnmatch (py_lower (path_name path)) (py_lower pattern) ||
    fnmatch (py_lower path) (py_lower pattern))

/-- The mutable state of a recursive-unpack run: the files currently on
disk under the root, and the resolved paths already processed in this
run. -/
structure RecState where
  files : List String
  processed : List String
deriving DecidableEq, Repr

/-- One pass's record (`pass_info`). -/
structure PassInfo where
  pass_num : Nat
  archives : List String
  errors : List (String × String)
deriving DecidableEq, Repr

/-- The run summary of `_recursive_unpack`. -/
structure RecSummary where
  passes : List PassInfo
  unpacked_count : Nat
  error_count : Nat
deriving DecidableEq, Repr

/-- The candidate scan at the top of each pass: files that are archives,
match a pattern, and were not processed earlier in this run. -/
def rec_candidates (patterns : List String) (st : RecState) : List String :=
  st.files.filter (fun p =>
    is_archive p && matches_any_pattern p patterns &&
      decide (p ∉ st.processed))

/-- Processing one candidate archive inside a pass: mark it processed,
then extract it (on success the revealed files appear and the archive is
removed when configured; on failure the error is recorded and the
archive stays). -/
def process_archive (env : String → Except String (List String))
    (remove : Bool) (acc : RecState × PassInfo × Nat × Nat) (a : String) :
    RecState × PassInfo × Nat × Nat :=
  let st := { acc.1 with processed := acc.1.processed ++ [a] }
  let pinfo := acc.2.1
  match env a with
  | Except.ok revealed =>
    let files1 := if remove then st.files.erase a else st.files
    let files2 := files1 ++ revealed.filter (fun f => decide (f ∉ files1))
    ({ st with files := files2 },
     { pinfo with archives := pinfo.archives ++ [a] },
     acc.2.2.1 + 1, acc.2.2.2)
  | Except.error msg =>
    (st, { pinfo with errors := pinfo.errors ++ [(a, msg)] },
     acc.2.2.1, acc.2.2.2 + 1)

/-- One pass over a fixed candidate list. -/
def rec_pass (env : String → Except String (List String)) (remove : Bool)
    (idx : Nat) (st : RecState) (cands : List String) :
    RecState × PassInfo × Nat × Nat :=
  cands.foldl (process_archive env remove) (st, ⟨idx + 1, [], []⟩, 0, 0)

/-- The pass loop of `_recursive_unpack`: runs up to the given number of
passes, stopping early when a pass finds no candidates. -/
def rec_unpack_loop (env : String → Except String (List String))
    (patterns : List String) (remove : Bool) :
    Nat → Nat → RecState → RecSummary → RecState × RecSummary
  | 0, _, st, summ => (st, summ)
  | n + 1, idx, st, summ =>
    let cands := rec_candidates patterns st
    if cands = [] then (st, summ)
    else
      let r := rec_pass env remove idx st cands
      rec_unpack_loop env patterns remove n (idx + 1) r.1
        { passes := summ.passes ++ [r.2.1]
          unpacked_count := summ.unpacked_count + r.2.2.1
          error_count := summ.error_count + r.2.2.2 }

/-- `_recursive_unpack` from `unpack.py`: an empty pattern list returns
immediately; otherwise at most `max(1, max_passes)` passes run. Returns
the final tree state and the summary. -/
def recursive_unpack (env : String → Except String (List String))
    (patterns : List String) (max_passes : Nat) (remove : Bool)
    (st : RecState) : RecState × RecSummary :=
  if patterns = [] then (st, ⟨[], 0, 0⟩)
  else rec_unpack_loop env patterns remove (max 1 max_passes) 0 st ⟨[], 0, 0⟩

/-- The frame of the Download Manager's satisfied-artifact path: how an
artifact entry after a re-run relates to its prior value. Every field is
unchanged except that `status` may have been set to `present`,
`updated_at` may have been refreshed to `now`, and `kind`/`size_bytes`
may have been refreshed from the listing and the local file (those two
are unconstrained here). -/
def entry_frame (now : String) (e e' : ArtifactEntry) : Prop :=
  e'.filename = e.filename ∧ e'.url = e.url ∧ e'.local_path = e.local_path ∧
  e'.checksum = e.checksum ∧ e'.downloaded_at = e.downloaded_at ∧
  e'.error = e.error ∧ e'.semantics = e.semantics ∧
  e'.description = e.description ∧
  e'.archive_removed_after_unpack = e.archive_removed_after_unpack ∧
  e'.unpacked_to = e.unpacked_to ∧ e'.rest = e.rest ∧
  (e'.status = e.status ∨ e'.status = some "present") ∧
  (e'.updated_at = e.updated_at ∨ e'.updated_at = some now)

/-- A component list that matches the standard ASA delivery layout as
`_detect_asa_prefix` tests it: either four components whose last three
start with `science_goal.uid___` / `group.uid___` / `member.uid___`
(leading project-code component), or three components starting with
those markers directly. -/
def asa_pfx_shape (pfx : List String) : Prop :=
  (∃ p0 p1 p2 p3, pfx = [p0, p1, p2, p3] ∧
    py_starts_with p1 "science_goal.uid___" = true ∧
    py_starts_with p2 "group.uid___" = true ∧
    py_starts_with p3 "member.uid___" = true) ∨
  (∃ p0 p1 p2, pfx = [p0, p1, p2] ∧
    py_starts_with p0 "science_goal.uid___" = true ∧
    py_starts_with p1 "group.uid___" = true ∧
    py_starts_with p2 "member.uid___" = true)

/-- An archive whose single member lies two levels below a shared
3-component ASA prefix (no member at depth exactly 4). -/
def c3_members : List TarMember :=
  [⟨"science_goal.uid___A001_X1_X2/group.uid___A001_X1_X3/member.uid___A001_X1_X4/products/f.fits",
    TarKind.file⟩]

/-- An archive whose single member lies one level below a shared
3-component ASA prefix (depth exactly 4). -/
def c3_good_members : List TarMember :=
  [⟨"science_goal.uid___A001_X1_X2/group.uid___A001_X1_X3/member.uid___A001_X1_X4/f.fits",
    TarKind.file⟩]

/-! ### The nested-archive chain fixture for the recursive-unpack claim -/

/-- The archive of nesting depth `i` in the chain fixture: `i` `b`
characters followed by `a.tgz` (all names end in `.tgz` and are pairwise
distinct). -/
def aname (i : Nat) : String :=
  ⟨List.replicate i 'b' ++ "a.tgz".data⟩

/-- The chain environment: extracting any archive reveals exactly one
deeper archive whose name is the extracted one's with a `b` prepended —
so layer `i` reveals layer `i + 1`. -/
def chain_env : String → Except String (List String) :=
  fun s => Except.ok ["b" ++ s]

/-! ### Concrete sample data used by witnesses -/

/-- A manifest artifact entry recorded by an earlier run (its
`updated_at` stamp is `"OLD"`). -/
def c2_entry : ArtifactEntry :=
  { (default : ArtifactEntry) with
    kind := "auxiliary"
    filename := "a.tgz"
    url := some "http://u"
    local_path := some "/d/a.tgz"
    size_bytes := some 5
    status := some "present"
    updated_at := some "OLD" }

/-- The manifest holding `c2_entry`, as read at the start of a re-run. -/
def c2_manifest : ManifestDoc :=
  { artifacts := [c2_entry], history := [], updated_at := some "OLD" }

/-- The single listed artifact of the re-run scenario; its local file of
the expected size already exists. -/
def c2_art : ArtifactInfo :=
  { kind := "auxiliary"
    url := "http://u"
    filename := "a.tgz"
    semantics := none
    size_bytes := some 5
    checksum := none
    description := none }

/-- The local tree of the re-run scenario: `a.tgz` exists with size 5. -/
def c2_fs : String → Option Nat :=
  fun f => if f = "a.tgz" then some 5 else none

/-- A failed artifact entry (status `error`), as the result loop records
one. -/
def failed_entry_sample : ArtifactEntry :=
  { (default : ArtifactEntry) with
    filename := "f1"
    status := some "error"
    error := some "boom" }

/-- A successfully transferred artifact entry (status `present`). -/
def present_entry_sample : ArtifactEntry :=
  { (default : ArtifactEntry) with
    filename := "f2"
    status := some "present" }

/-! ### Generic lemmas about the embedding -/

theorem mem_sel_add {sel : List String} {k x : String} :
    x ∈ sel_add sel k ↔ x ∈ sel ∨ x = k := by
  by_cases h : k ∈ sel
  · simp only [sel_add, if_pos h]
    constructor
    · exact Or.inl
    · rintro (hx | rfl)
      · exact hx
      · exact h
  · simp [sel_add, if_neg h]

theorem mem_sel_discard {sel : List String} {k x : String} :
    x ∈ sel_discard sel k ↔ x ∈ sel ∧ x ≠ k := by
  simp [sel_discard]

theorem string_data_ne_nil {p : String} (hp : p ≠ "") : p.data ≠ [] := by
  intro h
  exact hp (String.ext h)

theorem py_starts_with_ne_of_head {s p q : String} (hp : p ≠ "") (hq : q ≠ "")
    (hne : p.data.head? ≠ q.data.head?) (h : py_starts_with s p = true) :
    py_starts_with s q = false := by
  obtain ⟨c, cl, hc⟩ := List.exists_cons_of_ne_nil (string_data_ne_nil hp)
  obtain ⟨d, dl, hd⟩ := List.exists_cons_of_ne_nil (string_data_ne_nil hq)
  apply Bool.eq_false_iff.mpr
  intro habs
  rw [py_starts_with, List.isPrefixOf_iff_prefix] at h habs
  obtain ⟨t1, h1⟩ := h
  obtain ⟨t2, h2⟩ := habs
  rw [hc] at h1
  rw [hd] at h2
  rw [← h1] at h2
  simp only [List.cons_append] at h2
  injection h2 with h21 _
  apply hne
  rw [hc, hd]
  simp [h21]

/-! ### Claim C6 -/

/-- C6: the kind-selection token `default` expands to the canonical
default kind set, which contains no image-product kinds
(`continuum_images`, `cubes`); `all-nonimage` expands to a set including
`auxiliary`, `readme` and `calibration` and excluding the image-product
kinds; a `+x` token adds and a `-x` token removes exactly the normalized
kind, incrementally in token order; and a spec whose tokens resolve to
the empty set falls back to the default set. -/
theorem C6_kind_selection_spec :
    (resolve_artifact_selection "default" = DEFAULT_ARTIFACT_KINDS ∧
      "continuum_images" ∉ DEFAULT_ARTIFACT_KINDS ∧
      "cubes" ∉ DEFAULT_ARTIFACT_KINDS) ∧
    (resolve_artifact_selection "all-nonimage" = ALL_NONIMAGE_KINDS ∧
      "auxiliary" ∈ ALL_NONIMAGE_KINDS ∧
      "readme" ∈ ALL_NONIMAGE_KINDS ∧
      "calibration" ∈ ALL_NONIMAGE_KINDS ∧
      "continuum_images" ∉ ALL_NONIMAGE_KINDS ∧
      "cubes" ∉ ALL_NONIMAGE_KINDS) ∧
    (∀ sel t, py_starts_with t "+" = true →
      ∀ x, x ∈ selection_step sel t ↔
        (x ∈ sel ∨ x = normalize_kind (py_lstrip_plus_minus t))) ∧
    (∀ sel t, py_starts_with t "-" = true →
      ∀ x, x ∈ selection_step sel t ↔
        (x ∈ sel ∧ x ≠ normalize_kind (py_lstrip_plus_minus t))) ∧
    (∀ spec, (selection_tokens spec).foldl selection_step [] = [] →
      resolve_artifact_selection spec = DEFAULT_ARTIFACT_KINDS) := by
  refine ⟨by decide, by decide, ?_, ?_, ?_⟩
  · intro sel t ht x
    have hd : ¬(t = "default") := by
      rintro rfl
      exact absurd ht (by decide)
    have ha : ¬(t = "all-nonimage") := by
      rintro rfl
      exact absurd ht (by decide)
    simp [selection_step, hd, ha, ht, mem_sel_add]
  · intro sel t ht x
    have hd : ¬(t = "default") := by
      rintro rfl
      exact absurd ht (by decide)
    have ha : ¬(t = "all-nonimage") := by
      rintro rfl
      exact absurd ht (by decide)
    have hplus : py_starts_with t "+" = false :=
      py_starts_with_ne_of_head (by decide) (by decide) (by decide) ht
    simp [selection_step, hd, ha, ht, hplus, mem_sel_discard]
  · intro spec h
    simp only [resolve_artifact_selection, h]
    decide

/-- Witness for C6 at concrete inputs: `+cubes` adds `cubes`, `-readme`
removes `readme`, and a spec resolving to the empty set yields the
default set. -/
theorem C6_witness :
    ("cubes" ∈ selection_step ["readme"] "+cubes") ∧
    ("readme" ∉ selection_step ["readme"] "-readme") ∧
    resolve_artifact_selection "-calibration" = DEFAULT_ARTIFACT_KINDS := by
  refine ⟨?_, ?_, ?_⟩
  · exact (C6_kind_selection_spec.2.2.1 ["readme"] "+cubes" (by decide) "cubes").mpr
      (Or.inr (by decide))
  · intro hmem
    have h := (C6_kind_selection_spec.2.2.2.1 ["readme"] "-readme" (by decide) "readme").mp hmem
    exact h.2 (by decide)
  · exact C6_kind_selection_spec.2.2.2.2 "-calibration" (by decide)

/-! ### Claim C10 -/

/-- C10: QA-status normalization is total but not closed over the
canonical statuses: `None` and whitespace-only inputs normalize to no
status, and any other string whose stripped, uppercased form is not a
recognized truthy/falsy token and not one of PASS/SEMIPASS/FAIL/UNKNOWN
is stored as that stripped uppercased text itself. -/
theorem C10_qa_status_open_normalization :
    qa_status_text QaVal.vNone = none ∧
    (∀ s : String, py_strip s = "" → qa_status_text (QaVal.vStr s) = none) ∧
    (∀ s : String, py_upper (py_strip s) ≠ "" →
      py_upper (py_strip s) ∉
        ["TRUE", "T", "1", "FALSE", "F", "0", "PASS", "SEMIPASS", "FAIL",
         "UNKNOWN"] →
      qa_status_text (QaVal.vStr s) = some (py_upper (py_strip s))) := by
  refine ⟨rfl, ?_, ?_⟩
  · intro s h
    simp only [qa_status_text]
    rw [h]
    rfl
  · intro s h1 h2
    have m1 : ¬(py_upper (py_strip s) ∈ ["TRUE", "T", "1"]) := by
      intro hm
      apply h2
      simp only [List.mem_cons, List.mem_singleton, List.not_mem_nil] at hm ⊢
      tauto
    have m2 : ¬(py_upper (py_strip s) ∈ ["FALSE", "F", "0"]) := by
      intro hm
      apply h2
      simp only [List.mem_cons, List.mem_singleton, List.not_mem_nil] at hm ⊢
      tauto
    have m3 : ¬(py_upper (py_strip s) ∈ ["PASS", "SEMIPASS", "FAIL", "UNKNOWN"]) := by
      intro hm
      apply h2
      simp only [List.mem_cons, List.mem_singleton, List.not_mem_nil] at hm ⊢
      tauto
    simp [qa_status_text, h1, m1, m2, m3]

/-- Witness for C10 at concrete inputs: an unrecognized token is stored
as its stripped uppercased self; a whitespace-only input yields no
status. -/
theorem C10_witness :
    qa_status_text (QaVal.vStr " maybe ") = some "MAYBE" ∧
    qa_status_text (QaVal.vStr "   ") = none := by
  constructor
  · exact (C10_qa_status_open_normalization.2.2 " maybe " (by decide) (by decide)).trans
      (by decide)
  · exact C10_qa_status_open_normalization.2.1 "   " (by decide)

/-! ### Lemmas about keyed tables -/

theorem table_lookup_cons {κ ρ : Type} [DecidableEq κ] (kv : κ × ρ)
    (t : List (κ × ρ)) (k : κ) :
    table_lookup (kv :: t) k = if kv.1 = k then some kv.2 else table_lookup t k := by
  by_cases h : kv.1 = k <;> simp [table_lookup, List.find?, h]

theorem table_lookup_upsert_self {κ ρ : Type} [DecidableEq κ]
    (tbl : List (κ × ρ)) (k : κ) (r : ρ) :
    table_lookup (upsert_keyed tbl k r) k = some r := by
  induction tbl with
  | nil => simp [upsert_keyed, table_lookup, List.find?]
  | cons kv t ih =>
    by_cases h : kv.1 = k
    · simp [upsert_keyed, h, table_lookup_cons]
    · rw [upsert_keyed, if_neg h, table_lookup_cons, if_neg h]
      exact ih

theorem table_lookup_upsert_ne {κ ρ : Type} [DecidableEq κ]
    (tbl : List (κ × ρ)) (k k' : κ) (r : ρ) (h : k' ≠ k) :
    table_lookup (upsert_keyed tbl k r) k' = table_lookup tbl k' := by
  have hne : ¬(k = k') := fun hh => h hh.symm
  induction tbl with
  | nil => simp [upsert_keyed, table_lookup, List.find?, hne]
  | cons kv t ih =>
    by_cases hk : kv.1 = k
    · have h2 : ¬(kv.1 = k') := by
        rw [hk]
        exact hne
      rw [upsert_keyed, if_pos hk, table_lookup_cons, table_lookup_cons,
        if_neg hne, if_neg h2]
    · rw [upsert_keyed, if_neg hk, table_lookup_cons, table_lookup_cons, ih]

theorem table_lookup_fold_not_mem {κ ρ : Type} [DecidableEq κ]
    (rows : List (κ × ρ)) (tbl : List (κ × ρ)) (k : κ)
    (h : ∀ kv ∈ rows, kv.1 ≠ k) :
    table_lookup (rows.foldl (fun t kv => upsert_keyed t kv.1 kv.2) tbl) k =
      table_lookup tbl k := by
  induction rows generalizing tbl with
  | nil => rfl
  | cons kv t ih =>
    rw [List.foldl_cons, ih _ (fun kv' h' => h kv' (List.mem_cons_of_mem _ h')),
      table_lookup_upsert_ne]
    exact fun hh => h kv (List.mem_cons_self _ _) hh.symm

theorem table_lookup_fold_upsert {κ ρ : Type} [DecidableEq κ]
    (rows : List (κ × ρ)) (tbl : List (κ × ρ)) (k : κ) (r : ρ)
    (hnd : (rows.map Prod.fst).Nodup) (hmem : (k, r) ∈ rows) :
    table_lookup (rows.foldl (fun t kv => upsert_keyed t kv.1 kv.2) tbl) k =
      some r := by
  induction rows generalizing tbl with
  | nil => cases hmem
  | cons kv t ih =>
    rw [List.map_cons, List.nodup_cons] at hnd
    rcases List.mem_cons.mp hmem with rfl | hmem'
    · rw [List.foldl_cons]
      have hnotin : ∀ kv' ∈ t, kv'.1 ≠ k := by
        intro kv' h' habs
        apply hnd.1
        have := List.mem_map_of_mem Prod.fst h'
        rw [habs] at this
        exact this
      rw [table_lookup_fold_not_mem t _ k hnotin]
      exact table_lookup_upsert_self tbl k r
    · rw [List.foldl_cons]
      exact ih _ hnd.2 hmem'

theorem mem_insert_eb_self (tbl : List (String × String)) (k : String × String) :
    k ∈ insert_eb tbl k := by
  by_cases h : k ∈ tbl <;> simp [insert_eb, h]

theorem mem_insert_eb_of_mem (tbl : List (String × String))
    (k k' : String × String) (h : k ∈ tbl) : k ∈ insert_eb tbl k' := by
  by_cases h' : k' ∈ tbl <;> simp [insert_eb, h', h]

theorem mem_fold_insert_eb (rows : List (String × String))
    (tbl : List (String × String)) (k : String × String)
    (h : k ∈ rows ∨ k ∈ tbl) : k ∈ rows.foldl insert_eb tbl := by
  induction rows generalizing tbl with
  | nil =>
    rcases h with h | h
    · cases h
    · exact h
  | cons r t ih =>
    rw [List.foldl_cons]
    rcases h with h | h
    · rcases List.mem_cons.mp h with rfl | h'
      · exact ih _ (Or.inr (mem_insert_eb_self tbl k))
      · exact ih _ (Or.inl h')
    · exact ih _ (Or.inr (mem_insert_eb_of_mem tbl k r h))

/-! ### Claim C8 -/

/-- C8: QA-status normalization maps the representations `true`, `"T"`
and `"PASS"` (and the other boolean, truthy/falsy-token and textual
forms) to a single canonical status; upserting a unit twice with any two
of those representations stores `qa2_status = "PASS"` in the `mous` row
after each upsert; and a status normalized from the summary (its own
field or its `qa` block) always takes precedence over the raw manifest
flag. -/
theorem C8_qa_normalization_upsert :
    (∀ v ∈ [QaVal.vBool true, QaVal.vStr "T", QaVal.vStr "PASS"],
      ∀ m2 m2p : QaVal, compute_qa2_status v QaVal.vNone m2 m2p = some "PASS") ∧
    (∀ (tbl : List (String × MousRow)) (uid : String) (base1 base2 : MousRow)
        (v1 v2 : QaVal),
      v1 ∈ [QaVal.vBool true, QaVal.vStr "T", QaVal.vStr "PASS"] →
      v2 ∈ [QaVal.vBool true, QaVal.vStr "T", QaVal.vStr "PASS"] →
      ((table_lookup (upsert_mous_from_summary_qa tbl uid base1 v1 QaVal.vNone
          QaVal.vNone QaVal.vNone) uid).map MousRow.qa2_status
        = some (some "PASS") ∧
       (table_lookup (upsert_mous_from_summary_qa
          (upsert_mous_from_summary_qa tbl uid base1 v1 QaVal.vNone QaVal.vNone
            QaVal.vNone)
          uid base2 v2 QaVal.vNone QaVal.vNone QaVal.vNone) uid).map
            MousRow.qa2_status = some (some "PASS"))) ∧
    (∀ b : Bool, qa_status_text (QaVal.vBool b)
      = some (if b then "PASS" else "FAIL")) ∧
    (qa_status_text (QaVal.vStr "PASS") = some "PASS" ∧
     qa_status_text (QaVal.vStr "SEMIPASS") = some "SEMIPASS" ∧
     qa_status_text (QaVal.vStr "FAIL") = some "FAIL" ∧
     qa_status_text (QaVal.vStr "UNKNOWN") = some "UNKNOWN" ∧
     qa_status_text (QaVal.vStr "true") = some "PASS" ∧
     qa_status_text (QaVal.vStr "F") = some "FAIL" ∧
     qa_status_text (QaVal.vStr "0") = some "FAIL" ∧
     qa_status_text (QaVal.vStr "1") = some "PASS") ∧
    (∀ (sq qb m2 m2p : QaVal) (s : String),
      qa_status_text (py_or sq qb) = some s →
      compute_qa2_status sq qb m2 m2p = some s) := by
  have hnorm : ∀ v ∈ [QaVal.vBool true, QaVal.vStr "T", QaVal.vStr "PASS"],
      ∀ m2 m2p : QaVal, compute_qa2_status v QaVal.vNone m2 m2p = some "PASS" := by
    intro v hv m2 m2p
    simp only [List.mem_cons, List.mem_singleton, List.not_mem_nil, or_false] at hv
    rcases hv with rfl | rfl | rfl <;> rfl
  refine ⟨hnorm, ?_, ?_, by decide, ?_⟩
  · intro tbl uid base1 base2 v1 v2 hv1 hv2
    constructor
    · rw [upsert_mous_from_summary_qa, table_lookup_upsert_self]
      simp [hnorm v1 hv1 QaVal.vNone QaVal.vNone]
    · rw [upsert_mous_from_summary_qa, upsert_mous_from_summary_qa,
        table_lookup_upsert_self]
      simp [hnorm v2 hv2 QaVal.vNone QaVal.vNone]
  · intro b
    cases b <;> rfl
  · intro sq qb m2 m2p s h
    simp [compute_qa2_status, h]

/-- Witness for C8: upserting `u1` with `true` and then `"T"` stores
`qa2_status = "PASS"`. -/
theorem C8_witness :
    (table_lookup (upsert_mous_from_summary_qa
        (upsert_mous_from_summary_qa [] "uid://A001/X1/X2" default
          (QaVal.vBool true) QaVal.vNone QaVal.vNone QaVal.vNone)
        "uid://A001/X1/X2" default (QaVal.vStr "T") QaVal.vNone QaVal.vNone
        QaVal.vNone) "uid://A001/X1/X2").map MousRow.qa2_status
      = some (some "PASS") :=
  (C8_qa_normalization_upsert.2.1 [] "uid://A001/X1/X2" default default
    (QaVal.vBool true) (QaVal.vStr "T") (by decide) (by decide)).2

/-! ### Claim C4 -/

theorem merge_fold_spec (shards : List (Except String IndexDb)) (db : IndexDb)
    (n : Nat) :
    shards.foldl
        (fun acc sh =>
          match sh with
          | Except.ok d => (merge_db d acc.1, acc.2 + 1)
          | Except.error _ => acc) (db, n) =
      ((shards.filterMap Except.toOption).foldl (fun acc d => merge_db d acc) db,
       n + (shards.filterMap Except.toOption).length) := by
  induction shards generalizing db n with
  | nil => simp
  | cons sh t ih =>
    cases sh with
    | ok d =>
      rw [List.foldl_cons, List.filterMap_cons]
      simp only [Except.toOption, List.foldl_cons, List.length_cons]
      rw [ih]
      refine Prod.ext rfl ?_
      simp
      omega
    | error e =>
      rw [List.foldl_cons, List.filterMap_cons]
      simp only [Except.toOption]
      exact ih db n

/-- C4: merging shard stores folds each readable source in order into the
central store with replace-on-conflict semantics, so a unit id present in
two merged shards keeps the `mous` row (and `artifact` rows, and `eb`
rows) of whichever shard was merged last; an unreadable shard store is
skipped and the merge of every remaining readable shard is exactly the
merge of the readable shards alone, with `merged_shard_dbs` counting only
the readable ones. -/
theorem C4_merge_last_write_wins_and_skips_corrupt :
    (∀ (central : IndexDb) (shards : List (Except String IndexDb)),
      merge_index_from_shards central shards =
        ((shards.filterMap Except.toOption).foldl (fun acc db => merge_db db acc)
          central,
         (shards.filterMap Except.toOption).length)) ∧
    (∀ (central d1 d2 : IndexDb) (uid : String) (r2 : MousRow),
      (d2.mous.map Prod.fst).Nodup → (uid, r2) ∈ d2.mous →
      table_lookup
        (merge_index_from_shards central [Except.ok d1, Except.ok d2]).1.mous uid
        = some r2) ∧
    (∀ (central d1 d2 : IndexDb) (key : String × String) (row : ArtifactRow),
      (d2.artifact.map Prod.fst).Nodup → (key, row) ∈ d2.artifact →
      table_lookup
        (merge_index_from_shards central [Except.ok d1, Except.ok d2]).1.artifact
        key = some row) ∧
    (∀ (central d1 d2 : IndexDb) (k : String × String),
      k ∈ d2.eb →
      k ∈ (merge_index_from_shards central [Except.ok d1, Except.ok d2]).1.eb) := by
  refine ⟨?_, ?_, ?_, ?_⟩
  · intro central shards
    rw [merge_index_from_shards, merge_fold_spec shards central 0]
    simp
  · intro central d1 d2 uid r2 hnd hmem
    exact table_lookup_fold_upsert d2.mous _ uid r2 hnd hmem
  · intro central d1 d2 key row hnd hmem
    exact table_lookup_fold_upsert d2.artifact _ key row hnd hmem
  · intro central d1 d2 k hmem
    exact mem_fold_insert_eb d2.eb _ k (Or.inl hmem)

/-- Witness for C4: two one-row shards sharing unit id `u1`; the central
store keeps the second shard's row, and a corrupt shard between them is
skipped without affecting the result. -/
theorem C4_witness :
    table_lookup
      (merge_index_from_shards ⟨[], [], []⟩
        [Except.ok ⟨[("u1", (default : MousRow))], [], []⟩,
         Except.error "corrupt shard",
         Except.ok
           ⟨[("u1", { (default : MousRow) with project_code := some "P2" })], [],
            []⟩]).1.mous "u1"
      = some { (default : MousRow) with project_code := some "P2" } ∧
    (merge_index_from_shards ⟨[], [], []⟩
        [Except.ok ⟨[("u1", (default : MousRow))], [], []⟩,
         Except.error "corrupt shard",
         Except.ok
           ⟨[("u1", { (default : MousRow) with project_code := some "P2" })], [],
            []⟩]).2 = 2 := by
  constructor
  · have hskip := C4_merge_last_write_wins_and_skips_corrupt.1 ⟨[], [], []⟩
      [Except.ok ⟨[("u1", (default : MousRow))], [], []⟩,
       Except.error "corrupt shard",
       Except.ok
         ⟨[("u1", { (default : MousRow) with project_code := some "P2" })], [],
          []⟩]
    have hwin := C4_merge_last_write_wins_and_skips_corrupt.2.1 ⟨[], [], []⟩
      ⟨[("u1", (default : MousRow))], [], []⟩
      ⟨[("u1", { (default : MousRow) with project_code := some "P2" })], [], []⟩
      "u1" { (default : MousRow) with project_code := some "P2" }
      (by decide) (by decide)
    rw [hskip]
    rw [C4_merge_last_write_wins_and_skips_corrupt.1 _ _] at hwin
    simpa [Except.toOption] using hwin
  · rw [C4_merge_last_write_wins_and_skips_corrupt.1 _ _]
    decide

/-! ### Lemmas about manifest entry lists -/

theorem entry_lookup_cons (e : ArtifactEntry) (t : List ArtifactEntry)
    (f : String) :
    entry_lookup (e :: t) f = if e.filename = f then some e else entry_lookup t f := by
  by_cases h : e.filename = f
  · simp [entry_lookup, List.find?, h]
  · have hb : (e.filename == f) = false := beq_eq_false_iff_ne.mpr h
    simp [entry_lookup, List.find?, h, hb]

theorem entry_lookup_update_first_self (arts : List ArtifactEntry) (f : String)
    (g : ArtifactEntry → ArtifactEntry)
    (hg : ∀ e, e.filename = f → (g e).filename = f) :
    entry_lookup (update_first arts f g) f = (entry_lookup arts f).map g := by
  induction arts with
  | nil => rfl
  | cons e t ih =>
    by_cases h : e.filename = f
    · rw [update_first, if_pos h, entry_lookup_cons, entry_lookup_cons,
        if_pos (hg e h), if_pos h]
      rfl
    · rw [update_first, if_neg h, entry_lookup_cons, entry_lookup_cons,
        if_neg h, if_neg h, ih]

theorem entry_lookup_update_first_ne (arts : List ArtifactEntry) (f f' : String)
    (g : ArtifactEntry → ArtifactEntry)
    (hg : ∀ e, e.filename = f → (g e).filename = f) (h : f' ≠ f) :
    entry_lookup (update_first arts f g) f' = entry_lookup arts f' := by
  induction arts with
  | nil => rfl
  | cons e t ih =>
    by_cases he : e.filename = f
    · have : ¬((g e).filename = f') := by
        rw [hg e he]
        exact fun hh => h hh.symm
      rw [update_first, if_pos he, entry_lookup_cons, entry_lookup_cons,
        if_neg this, if_neg (by rw [he]; exact fun hh => h hh.symm)]
    · rw [update_first, if_neg he, entry_lookup_cons, entry_lookup_cons, ih]

theorem entry_lookup_append_of_none (arts : List ArtifactEntry)
    (p : ArtifactEntry) (f : String) (h : entry_lookup arts f = none) :
    entry_lookup (arts ++ [p]) f = if p.filename = f then some p else none := by
  induction arts with
  | nil => exact entry_lookup_cons p [] f
  | cons e t ih =>
    rw [entry_lookup_cons] at h
    by_cases he : e.filename = f
    · rw [if_pos he] at h
      cases h
    · rw [if_neg he] at h
      rw [List.cons_append, entry_lookup_cons, if_neg he, ih h]

theorem entry_lookup_append_of_some (arts : List ArtifactEntry)
    (p : ArtifactEntry) (f : String) (e : ArtifactEntry)
    (h : entry_lookup arts f = some e) :
    entry_lookup (arts ++ [p]) f = some e := by
  induction arts with
  | nil => cases h
  | cons e' t ih =>
    rw [entry_lookup_cons] at h
    by_cases he : e'.filename = f
    · rw [if_pos he] at h
      rw [List.cons_append, entry_lookup_cons, if_pos he]
      exact h
    · rw [if_neg he] at h
      rw [List.cons_append, entry_lookup_cons, if_neg he, ih h]

theorem mark_present_filename (art : ArtifactInfo) (fs : String → Option Nat)
    (now : String) (e : ArtifactEntry) :
    (mark_present art fs now e).filename = e.filename := rfl

/-! ### Claim C9 -/

/-- C9: an artifact listed with no expected size is satisfied by the mere
existence of a same-named local file: `_artifact_exists` reduces to bare
existence, such an artifact is never queued for transfer, and the
selection loop marks its entry `present` without any size or content
verification (any local size is accepted). -/
theorem C9_sizeless_artifact_presence :
    (∀ (fs : String → Option Nat) (f : String),
      artifact_exists fs f none = (fs f).isSome) ∧
    (∀ (dd : String) (fs : String → Option Nat) (now : String)
        (sel : List String) (available : List ArtifactInfo)
        (arts : List ArtifactEntry) (art : ArtifactInfo),
      art.size_bytes = none → (fs art.filename).isSome →
      art ∉ (select_to_fetch dd fs now sel available arts).2) ∧
    (∀ (dd : String) (fs : String → Option Nat) (now : String)
        (sel : List String) (arts : List ArtifactEntry) (art : ArtifactInfo)
        (sz : Nat),
      art.size_bytes = none → fs art.filename = some sz →
      artifact_selected art.kind sel = true →
      (select_to_fetch dd fs now sel [art] arts).2 = [] ∧
      ∃ e, entry_lookup (select_to_fetch dd fs now sel [art] arts).1 art.filename
          = some e ∧ e.status = some "present") := by
  have hexists : ∀ (fs : String → Option Nat) (f : String),
      artifact_exists fs f none = (fs f).isSome := by
    intro fs f
    rw [artifact_exists]
    cases fs f <;> rfl
  have hnofetch : ∀ (dd : String) (fs : String → Option Nat) (now : String)
      (sel : List String) (available : List ArtifactInfo)
      (acc : List ArtifactEntry × List ArtifactInfo) (art : ArtifactInfo),
      art.size_bytes = none → (fs art.filename).isSome → art ∉ acc.2 →
      art ∉ (available.foldl (select_step dd fs now sel) acc).2 := by
    intro dd fs now sel available
    induction available with
    | nil => intro acc art _ _ h; exact h
    | cons a t ih =>
      intro acc art hsz hfs hacc
      rw [List.foldl_cons]
      apply ih _ art hsz hfs
      rw [select_step]
      by_cases hsel : artifact_selected a.kind sel = true
      · simp only [hsel, Bool.not_true, Bool.false_eq_true, if_false]
        by_cases hsat : (artifact_exists fs a.filename a.size_bytes ||
            artifact_satisfied_without_archive_file
              (entry_lookup acc.1 a.filename)) = true
        · rw [if_pos hsat]
          cases entry_lookup acc.1 a.filename <;> exact hacc
        · rw [if_neg hsat]
          intro hmem
          rcases List.mem_append.mp hmem with h | h
          · exact hacc h
          · rcases List.mem_singleton.mp h with rfl
            rw [artifact_exists, hsz] at hsat
            cases hfc : fs art.filename with
            | none => rw [hfc] at hfs; cases hfs
            | some v => rw [hfc] at hsat; simp at hsat
      · simp only [Bool.not_eq_true'] at hsel
        simp only [hsel, Bool.not_false, if_true]
        exact hacc
  refine ⟨hexists, ?_, ?_⟩
  · intro dd fs now sel available arts art hsz hfs
    exact hnofetch dd fs now sel available (arts, []) art hsz hfs
      (List.not_mem_nil art)
  · intro dd fs now sel arts art sz hsz hfs hsel
    have hex : artifact_exists fs art.filename art.size_bytes = true := by
      rw [hsz, hexists, hfs]
      rfl
    have hstep : select_to_fetch dd fs now sel [art] arts =
        select_step dd fs now sel (arts, []) art := rfl
    rw [hstep, select_step]
    simp only [hsel, Bool.not_true, Bool.false_eq_true, if_false, hex,
      Bool.true_or, if_true]
    cases hl : entry_lookup arts art.filename with
    | some e =>
      refine ⟨rfl, mark_present art fs now e, ?_, rfl⟩
      rw [entry_lookup_update_first_self arts art.filename _
        (fun e' h' => (mark_present_filename art fs now e').trans h'), hl]
      rfl
    | none =>
      refine ⟨rfl, new_present_entry art fs now dd, ?_, rfl⟩
      rw [entry_lookup_append_of_none arts _ _ hl]
      have hfn : (new_present_entry art fs now dd).filename = art.filename := rfl
      rw [if_pos hfn]

/-- Witness for C9: a size-less listed artifact with an existing local
file of any size is never fetched and its entry is `present`. -/
theorem C9_witness :
    (⟨"auxiliary", "http://u", "a.tgz", none, none, none, none⟩ : ArtifactInfo) ∉
      (select_to_fetch "/d" (fun f => if f = "a.tgz" then some 77 else none)
        "NOW" ["auxiliary"]
        [⟨"auxiliary", "http://u", "a.tgz", none, none, none, none⟩] []).2 ∧
    (select_to_fetch "/d" (fun f => if f = "a.tgz" then some 77 else none)
        "NOW" ["auxiliary"]
        [⟨"auxiliary", "http://u", "a.tgz", none, none, none, none⟩] []).2 = [] := by
  constructor
  · exact C9_sizeless_artifact_presence.2.1 "/d"
      (fun f => if f = "a.tgz" then some 77 else none) "NOW" ["auxiliary"]
      [⟨"auxiliary", "http://u", "a.tgz", none, none, none, none⟩] []
      ⟨"auxiliary", "http://u", "a.tgz", none, none, none, none⟩ rfl (by decide)
  · exact (C9_sizeless_artifact_presence.2.2 "/d"
      (fun f => if f = "a.tgz" then some 77 else none) "NOW" ["auxiliary"] []
      ⟨"auxiliary", "http://u", "a.tgz", none, none, none, none⟩ 77 rfl
      (by decide) (by decide)).1

/-! ### Claim C5 -/

theorem download_one_go_all_fail (oracle : Nat → Except String Nat) (rc : Nat)
    (msg : Nat → String) :
    ∀ (l : List Nat), (∀ a ∈ l, oracle a = Except.error (msg a)) →
      (∀ a ∈ l.dropLast, a ≠ rc) → ∀ (h : l ≠ []), l.getLast h = rc →
      download_one_go oracle rc l =
        ⟨"error", some (msg rc), none,
         l.dropLast.map (fun a => min (2 ^ a) 10)⟩ := by
  intro l
  induction l with
  | nil =>
    intro _ _ h
    exact absurd rfl h
  | cons a t ih =>
    intro hfail hmid h hlast
    cases t with
    | nil =>
      have ha : a = rc := hlast
      rw [download_one_go, hfail a (List.mem_cons_self a [])]
      dsimp only
      rw [if_pos ha, ha]
      rfl
    | cons b t' =>
      have hne : a ≠ rc := by
        apply hmid
        rw [List.dropLast_cons₂]
        exact List.mem_cons_self a _
      rw [download_one_go, hfail a (List.mem_cons_self a _)]
      dsimp only
      rw [if_neg hne]
      have ihr := ih
        (fun x hx => hfail x (List.mem_cons_of_mem a hx))
        (fun x hx => by
          apply hmid
          rw [List.dropLast_cons₂]
          exact List.mem_cons_of_mem a hx)
        (List.cons_ne_nil b t')
        (by rw [← List.getLast_cons (List.cons_ne_nil b t')]; exact hlast)
      rw [ihr, List.dropLast_cons₂, List.map_cons]

theorem download_one_sleeps_le (oracle : Nat → Except String Nat) (rc : Nat) :
    ∀ (l : List Nat) (s : Nat), s ∈ (download_one_go oracle rc l).sleeps →
      s ≤ 10 := by
  intro l
  induction l with
  | nil =>
    intro s hs
    cases hs
  | cons a t ih =>
    intro s hs
    rw [download_one_go] at hs
    cases ho : oracle a with
    | ok v =>
      rw [ho] at hs
      dsimp only at hs
      cases hs
    | error m =>
      rw [ho] at hs
      dsimp only at hs
      by_cases ha : a = rc
      · rw [if_pos ha] at hs
        cases hs
      · rw [if_neg ha] at hs
        rcases List.mem_cons.mp hs with rfl | hs'
        · exact min_le_right _ _
        · exact ih s hs'

theorem apply_result_lookup_ne (arts : List ArtifactEntry) (p : ArtifactEntry)
    (f : String) (h : p.filename ≠ f) :
    entry_lookup (apply_result arts p) f = entry_lookup arts f := by
  cases hl : entry_lookup arts p.filename with
  | some e =>
    rw [apply_result, hl]
    dsimp only
    exact entry_lookup_update_first_ne arts p.filename f _
      (fun _ _ => rfl) (fun hh => h hh.symm)
  | none =>
    rw [apply_result, hl]
    dsimp only
    cases hf : entry_lookup arts f with
    | some e => exact entry_lookup_append_of_some arts p f e hf
    | none =>
      rw [entry_lookup_append_of_none arts p f hf, if_neg h]

theorem apply_result_lookup_self (arts : List ArtifactEntry)
    (p : ArtifactEntry) :
    entry_lookup (apply_result arts p) p.filename =
      some (match entry_lookup arts p.filename with
            | some e => apply_payload e p
            | none => p) := by
  cases hl : entry_lookup arts p.filename with
  | some e =>
    rw [apply_result, hl]
    dsimp only
    rw [entry_lookup_update_first_self arts p.filename
      (fun e' => apply_payload e' p) (fun _ _ => rfl), hl]
    rfl
  | none =>
    rw [apply_result, hl]
    dsimp only
    rw [entry_lookup_append_of_none arts p p.filename hl, if_pos rfl]

theorem apply_results_lookup_notin (ps : List ArtifactEntry)
    (arts : List ArtifactEntry) (f : String)
    (h : ∀ q ∈ ps, q.filename ≠ f) :
    entry_lookup (apply_results arts ps) f = entry_lookup arts f := by
  induction ps generalizing arts with
  | nil => rfl
  | cons q t ih =>
    rw [apply_results, List.foldl_cons]
    rw [show List.foldl apply_result (apply_result arts q) t =
      apply_results (apply_result arts q) t from rfl]
    rw [ih _ (fun x hx => h x (List.mem_cons_of_mem q hx)),
      apply_result_lookup_ne arts q f (h q (List.mem_cons_self q t))]

/-- C5: the transfer loop retries up to `retries` attempts, sleeping
`min(2^attempt, 10)` seconds after each failed non-final attempt (so
every backoff is capped at 10); when every attempt fails the result is
status `error` carrying the last attempt's failure message; a failed
transfer's payload marks the artifact entry `error` with that message;
and recording transfer results is per-artifact independent — each
artifact's final entry is determined by its own result alone, so one
artifact's failure never alters another's entry. -/
theorem C5_retry_backoff_and_isolation :
    (∀ (oracle : Nat → Except String Nat) (retries : Nat) (msg : Nat → String),
      1 ≤ retries →
      (∀ a, 1 ≤ a → a ≤ retries → oracle a = Except.error (msg a)) →
      download_one oracle retries =
        ⟨"error", some (msg retries), none,
         (attempt_list (retries - 1)).map (fun a => min (2 ^ a) 10)⟩) ∧
    (∀ (oracle : Nat → Except String Nat) (retries s : Nat),
      s ∈ (download_one oracle retries).sleeps → s ≤ 10) ∧
    (∀ (art : ArtifactInfo) (lp : String) (r : DlResult) (cks : Option String)
        (now : String), r.status ≠ "ok" →
      (result_payload art lp r cks now).status = some "error" ∧
      (result_payload art lp r cks now).error = r.error) ∧
    (∀ (arts payloads : List ArtifactEntry) (p : ArtifactEntry),
      (payloads.map ArtifactEntry.filename).Nodup → p ∈ payloads →
      entry_lookup (apply_results arts payloads) p.filename =
        some (match entry_lookup arts p.filename with
              | some e => apply_payload e p
              | none => p)) := by
  refine ⟨?_, ?_, ?_, ?_⟩
  · intro oracle retries msg h1 hfail
    obtain ⟨m, rfl⟩ : ∃ m, retries = m + 1 := ⟨retries - 1, by omega⟩
    have hsplit : attempt_list (m + 1) = attempt_list m ++ [m + 1] := by
      rw [attempt_list, attempt_list, List.range_succ, List.map_append]
      rfl
    rw [download_one, hsplit]
    have hlast : (attempt_list m ++ [m + 1]).getLast
        (by simp) = m + 1 := by
      simp [List.getLast_append]
    have hdrop : (attempt_list m ++ [m + 1]).dropLast = attempt_list m := by
      rw [List.dropLast_concat]
    rw [download_one_go_all_fail oracle (m + 1) msg _
      (by
        intro a ha
        rcases List.mem_append.mp ha with ha' | ha'
        · rw [attempt_list] at ha'
          obtain ⟨i, hi, rfl⟩ := List.mem_map.mp ha'
          have := List.mem_range.mp hi
          exact hfail (i + 1) (by omega) (by omega)
        · rcases List.mem_singleton.mp ha' with rfl
          exact hfail (m + 1) (by omega) (by omega))
      (by
        rw [hdrop]
        intro a ha
        rw [attempt_list] at ha
        obtain ⟨i, hi, rfl⟩ := List.mem_map.mp ha
        have := List.mem_range.mp hi
        omega)
      (by simp) hlast, hdrop]
    simp
  · intro oracle retries s hs
    exact download_one_sleeps_le oracle retries (attempt_list retries) s hs
  · intro art lp r cks now h
    constructor
    · simp [result_payload, h]
    · rfl
  · intro arts payloads p hnd hp
    induction payloads generalizing arts with
    | nil => cases hp
    | cons q t ih =>
      rw [List.map_cons, List.nodup_cons] at hnd
      rw [apply_results, List.foldl_cons,
        show List.foldl apply_result (apply_result arts q) t =
          apply_results (apply_result arts q) t from rfl]
      rcases List.mem_cons.mp hp with rfl | hp'
      · have hnotin : ∀ x ∈ t, x.filename ≠ p.filename := by
          intro x hx habs
          exact hnd.1 (habs ▸ List.mem_map_of_mem ArtifactEntry.filename hx)
        rw [apply_results_lookup_notin t _ _ hnotin]
        exact apply_result_lookup_self arts p
      · have hqp : q.filename ≠ p.filename := by
          intro habs
          exact hnd.1 (habs ▸ List.mem_map_of_mem ArtifactEntry.filename hp')
        rw [ih (apply_result arts q) hnd.2 hp',
          apply_result_lookup_ne arts q p.filename hqp]

/-- Witness for C5: three failing attempts produce status `error` with
the third attempt's message after backoffs of 2 and 4 seconds, and
recording a failed payload next to a successful one leaves the
successful artifact's entry untouched by the failure. -/
theorem C5_witness :
    download_one
        (fun a => Except.error (if a = 3 then "last" else "early")) 3
      = ⟨"error", some "last", none, [2, 4]⟩ ∧
    entry_lookup (apply_results [] [failed_entry_sample, present_entry_sample])
        "f2"
      = some present_entry_sample := by
  constructor
  · have h := C5_retry_backoff_and_isolation.1
      (fun a => Except.error (if a = 3 then "last" else "early")) 3
      (fun a => if a = 3 then "last" else "early") (by omega)
      (fun a _ _ => rfl)
    exact h.trans (by decide)
  · have h := C5_retry_backoff_and_isolation.2.2.2 []
      [failed_entry_sample, present_entry_sample] present_entry_sample
      (by decide) (by decide)
    exact h.trans (by decide)

/-! ### Claim C2 -/

theorem entry_frame_refl (now : String) (e : ArtifactEntry) :
    entry_frame now e e :=
  ⟨rfl, rfl, rfl, rfl, rfl, rfl, rfl, rfl, rfl, rfl, rfl, Or.inl rfl,
   Or.inl rfl⟩

theorem entry_frame_mark_present (now : String) (art : ArtifactInfo)
    (fs : String → Option Nat) (e e' : ArtifactEntry)
    (h : entry_frame now e e') :
    entry_frame now e (mark_present art fs now e') := by
  obtain ⟨h1, h2, h3, h4, h5, h6, h7, h8, h9, h10, h11, _, _⟩ := h
  exact ⟨h1, h2, h3, h4, h5, h6, h7, h8, h9, h10, h11, Or.inr rfl, Or.inr rfl⟩

theorem entry_lookup_isSome_frame (now : String) :
    ∀ {l l' : List ArtifactEntry}, List.Forall₂ (entry_frame now) l l' →
    ∀ f, (entry_lookup l' f).isSome = (entry_lookup l f).isSome := by
  intro l l' h
  induction h with
  | nil => intro f; rfl
  | @cons a b l₁ l₂ h1 _ ih =>
    intro f
    rw [entry_lookup_cons, entry_lookup_cons]
    by_cases hf : a.filename = f
    · rw [if_pos hf, if_pos (h1.1.trans hf)]
      rfl
    · rw [if_neg hf, if_neg (fun hh => hf ((h1.1.symm).trans hh))]
      exact ih f

theorem forall2_frame_update_first (now : String)
    (g : ArtifactEntry → ArtifactEntry)
    (hg : ∀ e e', entry_frame now e e' → entry_frame now e (g e')) :
    ∀ {orig l : List ArtifactEntry} (f : String),
      List.Forall₂ (entry_frame now) orig l →
      List.Forall₂ (entry_frame now) orig (update_first l f g) := by
  intro orig l f h
  induction h with
  | nil => exact List.Forall₂.nil
  | @cons a b l₁ l₂ h1 htail ih =>
    rw [update_first]
    by_cases hf : b.filename = f
    · rw [if_pos hf]
      exact List.Forall₂.cons (hg a b h1) htail
    · rw [if_neg hf]
      exact List.Forall₂.cons h1 ih

theorem select_fold_frame (dd : String) (fs : String → Option Nat)
    (now : String) (sel : List String) (orig : List ArtifactEntry) :
    ∀ (available : List ArtifactInfo)
      (acc : List ArtifactEntry × List ArtifactInfo),
      (∀ art ∈ available, artifact_selected art.kind sel = true →
        artifact_exists fs art.filename art.size_bytes = true ∧
        (entry_lookup orig art.filename).isSome = true) →
      List.Forall₂ (entry_frame now) orig acc.1 →
      List.Forall₂ (entry_frame now) orig
        (available.foldl (select_step dd fs now sel) acc).1 ∧
      (available.foldl (select_step dd fs now sel) acc).2 = acc.2 := by
  intro available
  induction available with
  | nil => intro acc _ hacc; exact ⟨hacc, rfl⟩
  | cons a t ih =>
    intro acc h hacc
    rw [List.foldl_cons]
    have hstep :
        List.Forall₂ (entry_frame now) orig
          (select_step dd fs now sel acc a).1 ∧
        (select_step dd fs now sel acc a).2 = acc.2 := by
      rw [select_step]
      by_cases hsel : artifact_selected a.kind sel = true
      · have hart := h a (List.mem_cons_self a t) hsel
        have hsome : (entry_lookup acc.1 a.filename).isSome = true := by
          rw [entry_lookup_isSome_frame now hacc a.filename]
          exact hart.2
        obtain ⟨e, he⟩ := Option.isSome_iff_exists.mp hsome
        simp only [hsel, Bool.not_true, Bool.false_eq_true, if_false]
        rw [he, hart.1]
        dsimp only
        exact ⟨forall2_frame_update_first now _
          (entry_frame_mark_present now a fs) a.filename hacc, rfl⟩
      · simp only [Bool.not_eq_true'] at hsel
        constructor
        · simp only [hsel, Bool.not_false, if_true]
          exact hacc
        · simp only [hsel, Bool.not_false, if_true]
    exact (ih (select_step dd fs now sel acc a)
      (fun x hx => h x (List.mem_cons_of_mem a hx)) hstep.1).imp id
      (fun h2 => h2.trans hstep.2)

/-- C2 (amended): when no selected listed artifact is missing locally and
every such artifact already has a manifest entry, the re-run queues no
transfer and appends exactly one history record; every artifact entry is
preserved up to the satisfied-path frame — all fields unchanged except
that `status` may be set to `present` and `kind`, `size_bytes` and
`updated_at` may be refreshed (so entries are not in general
byte-identical: the `updated_at` stamp moves to the current run). The
manifest-level `updated_at` is also restamped. -/
theorem C2_rerun_one_history_append_frame (dd : String)
    (fs : String → Option Nat) (now : String) (sel : List String)
    (available : List ArtifactInfo) (m : ManifestDoc)
    (h : ∀ art ∈ available, artifact_selected art.kind sel = true →
      artifact_exists fs art.filename art.size_bytes = true ∧
      (entry_lookup m.artifacts art.filename).isSome = true) :
    (select_to_fetch dd fs now sel available m.artifacts).2 = [] ∧
    List.Forall₂ (entry_frame now) m.artifacts
      (select_to_fetch dd fs now sel available m.artifacts).1 ∧
    (select_to_fetch dd fs now sel available m.artifacts).1.length
      = m.artifacts.length ∧
    download_no_missing dd fs now sel available m =
      { artifacts := (select_to_fetch dd fs now sel available m.artifacts).1
        history := m.history ++ [no_missing_event now sel]
        updated_at := some now } := by
  have hrefl : List.Forall₂ (entry_frame now) m.artifacts m.artifacts :=
    List.forall₂_same.mpr (fun e _ => entry_frame_refl now e)
  have hfold := select_fold_frame dd fs now sel m.artifacts available
    (m.artifacts, []) h hrefl
  exact ⟨hfold.2, hfold.1, (List.Forall₂.length_eq hfold.1).symm, rfl⟩

/-- Counterexample to C2 as stated: a re-run with nothing missing leaves
`to_fetch` empty and appends one history record, yet the artifact entry
is not byte-identical to its prior value — its `updated_at` stamp is
refreshed. -/
theorem C2_counterexample :
    (select_to_fetch "/d" c2_fs "NOW" ["auxiliary"] [c2_art]
      c2_manifest.artifacts).2 = [] ∧
    (download_no_missing "/d" c2_fs "NOW" ["auxiliary"] [c2_art]
        c2_manifest).history
      = c2_manifest.history ++ [no_missing_event "NOW" ["auxiliary"]] ∧
    (download_no_missing "/d" c2_fs "NOW" ["auxiliary"] [c2_art]
        c2_manifest).artifacts ≠ c2_manifest.artifacts := by
  decide

/-- Witness for C2 (amended) at the concrete re-run scenario. -/
theorem C2_witness :
    (select_to_fetch "/d" c2_fs "NOW" ["auxiliary"] [c2_art]
      c2_manifest.artifacts).2 = [] ∧
    List.Forall₂ (entry_frame "NOW") c2_manifest.artifacts
      (select_to_fetch "/d" c2_fs "NOW" ["auxiliary"] [c2_art]
        c2_manifest.artifacts).1 := by
  have h := C2_rerun_one_history_append_frame "/d" c2_fs "NOW" ["auxiliary"]
    [c2_art] c2_manifest (by decide)
  exact ⟨h.1, h.2.1⟩

/-! ### Claim C1 -/

theorem safe_extract_go_append (root : List String) (sp : Option (List String)) :
    ∀ (pre rest : List TarMember), (∀ m' ∈ pre, member_safe root sp m') →
    safe_extract_go root sp (pre ++ rest) =
      ⟨(safe_extract_go root sp pre).written ++ (safe_extract_go root sp rest).written,
       (safe_extract_go root sp pre).dirs ++ (safe_extract_go root sp rest).dirs,
       (safe_extract_go root sp rest).error⟩ := by
  intro pre
  induction pre with
  | nil =>
    intro rest _
    rw [List.nil_append]
    rfl
  | cons m' pre' ih =>
    intro rest h
    have hm' := h m' (List.mem_cons_self m' pre')
    have ihr := ih rest (fun x hx => h x (List.mem_cons_of_mem m' hx))
    have hcons : ∀ l : List TarMember, safe_extract_go root sp (m' :: l) =
        (if strip_parts (member_parts m'.name) sp = [] then
          safe_extract_go root sp l
        else if !dest_ok root
            (resolve_comps root (strip_parts (member_parts m'.name) sp)) then
          ⟨[], [], some ("Unsafe tar member path: " ++ m'.name)⟩
        else
          match m'.kind with
          | TarKind.dir =>
            ⟨(safe_extract_go root sp l).written,
             resolve_comps root (strip_parts (member_parts m'.name) sp) ::
               (safe_extract_go root sp l).dirs,
             (safe_extract_go root sp l).error⟩
          | TarKind.file =>
            ⟨resolve_comps root (strip_parts (member_parts m'.name) sp) ::
               (safe_extract_go root sp l).written,
             (safe_extract_go root sp l).dirs,
             (safe_extract_go root sp l).error⟩
          | TarKind.special => safe_extract_go root sp l) := by
      intro l
      rw [safe_extract_go]
    rw [List.cons_append, hcons (pre' ++ rest), hcons pre']
    by_cases hskip : strip_parts (member_parts m'.name) sp = []
    · rw [if_pos hskip, if_pos hskip, ihr]
    · rcases hm' with hc | hok
      · exact absurd hc hskip
      · rw [if_neg hskip, if_neg hskip, hok]
        rw [if_neg (by simp), if_neg (by simp)]
        cases m'.kind
        · rw [ihr]
          rfl
        · rw [ihr]
          rfl
        · rw [ihr]

theorem safe_extract_go_offender (root : List String)
    (sp : Option (List String)) (m : TarMember) (post : List TarMember)
    (h1 : strip_parts (member_parts m.name) sp ≠ [])
    (h2 : dest_ok root (resolve_comps root (strip_parts (member_parts m.name) sp))
      = false) :
    safe_extract_go root sp (m :: post) =
      ⟨[], [], some ("Unsafe tar member path: " ++ m.name)⟩ := by
  rw [safe_extract_go]
  dsimp only
  rw [if_neg h1, h2]
  rfl

/-- C1 (amended): a member whose resolved destination fails the
target-root test is always rejected — extraction raises `ValueError`
naming the first such member, and neither it nor any later member is
written; members extracted before the offending one, however, have
already been written (partial extraction is possible). In the archive
loop, one archive's extraction failure only records an error for that
archive and leaves everything else untouched, so only that archive is
aborted. -/
theorem C1_traversal_rejected_at_first_offender :
    (∀ (root : List String) (sp : Option (List String))
        (pre : List TarMember) (m : TarMember) (post : List TarMember),
      (∀ m' ∈ pre, member_safe root sp m') →
      strip_parts (member_parts m.name) sp ≠ [] →
      dest_ok root (resolve_comps root (strip_parts (member_parts m.name) sp))
        = false →
      safe_extract (pre ++ m :: post) root sp =
        ⟨(safe_extract pre root sp).written, (safe_extract pre root sp).dirs,
         some ("Unsafe tar member path: " ++ m.name)⟩) ∧
    (∀ (env : String → Except String (List String)) (remove : Bool)
        (st : RecState) (pinfo : PassInfo) (u e : Nat) (a : String)
        (msg : String),
      env a = Except.error msg →
      process_archive env remove (st, pinfo, u, e) a =
        ({ st with processed := st.processed ++ [a] },
         { pinfo with errors := pinfo.errors ++ [(a, msg)] }, u, e + 1)) := by
  constructor
  · intro root sp pre m post hsafe h1 h2
    rw [safe_extract,
      safe_extract_go_append root sp pre (m :: post) hsafe,
      safe_extract_go_offender root sp m post h1 h2, List.append_nil,
      List.append_nil]
    rfl
  · intro env remove st pinfo u e a msg h
    rw [process_archive, h]

/-- Counterexample to C1 as stated: an archive holding a safe member
followed by the traversal member `../../etc/passwd` is rejected, but the
safe member has already been written — extraction is not free of partial
writes. -/
theorem C1_counterexample :
    (safe_extract
        [⟨"ok.txt", TarKind.file⟩, ⟨"../../etc/passwd", TarKind.file⟩]
        ["data", "target"] none).error.isSome = true ∧
    (safe_extract
        [⟨"ok.txt", TarKind.file⟩, ⟨"../../etc/passwd", TarKind.file⟩]
        ["data", "target"] none).written = [["data", "target", "ok.txt"]] := by
  decide

/-- Witness for C1 (amended): the traversal member is rejected by name
and nothing at or after it is written, while the preceding member's
write stands. -/
theorem C1_witness :
    safe_extract
        [⟨"ok.txt", TarKind.file⟩, ⟨"../../etc/passwd", TarKind.file⟩]
        ["data", "target"] none =
      ⟨(safe_extract [⟨"ok.txt", TarKind.file⟩] ["data", "target"] none).written,
       (safe_extract [⟨"ok.txt", TarKind.file⟩] ["data", "target"] none).dirs,
       some ("Unsafe tar member path: " ++ "../../etc/passwd")⟩ :=
  C1_traversal_rejected_at_first_offender.1 ["data", "target"] none
    [⟨"ok.txt", TarKind.file⟩] ⟨"../../etc/passwd", TarKind.file⟩ []
    (by
      intro m' hm'
      rw [List.mem_singleton] at hm'
      subst hm'
      exact Or.inr (by decide))
    (by decide) (by decide)

/-! ### Claim C7 -/

theorem glob_fuel_star (l : List Char) : ∀ n, l.length + 2 ≤ n →
    glob_match_fuel n ['*'] l = true := by
  induction l with
  | nil =>
    intro n hn
    obtain ⟨m, rfl⟩ : ∃ m, n = m + 1 := ⟨n - 1, by omega⟩
    obtain ⟨m', rfl⟩ : ∃ m', m = m' + 1 := ⟨m - 1, by omega⟩
    rfl
  | cons c cs ih =>
    intro n hn
    obtain ⟨m, rfl⟩ : ∃ m, n = m + 1 := ⟨n - 1, by omega⟩
    rw [glob_match_fuel, ih m (by simp only [List.length_cons] at hn; omega),
      Bool.or_true]

theorem matches_any_star (path : String) :
    matches_any_pattern path ["*"] = true := by
  have h : fnmatch (path_name path) "*" = true := by
    rw [fnmatch, glob_match, show "*".data = ['*'] from rfl]
    exact glob_fuel_star _ _ (by simp only [List.length_cons, List.length_nil]; omega)
  rw [matches_any_pattern]
  simp [h]

theorem aname_data (i : Nat) :
    (aname i).data = List.replicate i 'b' ++ "a.tgz".data := rfl

theorem aname_inj {i j : Nat} (h : aname i = aname j) : i = j := by
  have h2 : (aname i).data.length = (aname j).data.length := by rw [h]
  simp only [aname_data, List.length_append, List.length_replicate] at h2
  omega

theorem b_append_aname (i : Nat) : "b" ++ aname i = aname (i + 1) := by
  apply String.ext
  rw [String.data_append, aname_data, aname_data, List.replicate_succ,
    show "b".data = ['b'] from rfl]
  rfl

theorem list_split_no_sep (p : Char → Bool) :
    ∀ (l : List Char), (∀ c ∈ l, p c = false) → list_split p l = [l] := by
  intro l
  induction l with
  | nil => intro _; rfl
  | cons c cs ih =>
    intro h
    rw [list_split, ih (fun x hx => h x (List.mem_cons_of_mem c hx)),
      h c (List.mem_cons_self c cs)]

theorem path_name_aname (i : Nat) : path_name (aname i) = aname i := by
  have hclosed : ∀ c ∈ "a.tgz".data, decide (c = '/') = false := by decide
  have hs : ∀ c ∈ (aname i).data, (fun c => decide (c = '/')) c = false := by
    intro c hc
    rw [aname_data] at hc
    rcases List.mem_append.mp hc with hb | ha
    · rw [List.eq_of_mem_replicate hb]
      rfl
    · exact hclosed c ha
  rw [path_name, py_split, list_split_no_sep _ _ hs]
  rfl

theorem py_lower_aname (i : Nat) : py_lower (aname i) = aname i := by
  apply String.ext
  show (aname i).data.map Char.toLower = (aname i).data
  rw [aname_data, List.map_append, List.map_replicate]
  have h1 : Char.toLower 'b' = 'b' := by decide
  have h2 : "a.tgz".data.map Char.toLower = "a.tgz".data := by decide
  rw [h1, h2]

theorem is_archive_aname (i : Nat) : is_archive (aname i) = true := by
  rw [is_archive, path_name_aname]
  rw [py_lower_aname]
  have he : py_ends_with (aname i) ".tgz" = true := by
    rw [py_ends_with, List.isSuffixOf_iff_suffix]
    refine ⟨List.replicate i 'b' ++ "a".data, ?_⟩
    rw [aname_data, show "a.tgz".data = "a".data ++ ".tgz".data from rfl,
      List.append_assoc]
  rw [he]
  rfl

theorem chain_env_aname (k : Nat) :
    chain_env (aname k) = Except.ok [aname (k + 1)] := by
  rw [chain_env, b_append_aname]

theorem chain_candidates (k : Nat) (pr : List String) (h : aname k ∉ pr) :
    rec_candidates ["*"] ⟨[aname k], pr⟩ = [aname k] := by
  rw [rec_candidates]
  simp [is_archive_aname, matches_any_star, h]

theorem chain_pass (k idx : Nat) (pr : List String) :
    rec_pass chain_env true idx ⟨[aname k], pr⟩ [aname k] =
      (⟨[aname (k + 1)], pr ++ [aname k]⟩, ⟨idx + 1, [aname k], []⟩, 1, 0) := by
  rw [rec_pass, List.foldl_cons, List.foldl_nil, process_archive,
    chain_env_aname k]
  dsimp only
  rw [List.erase_cons_head]
  simp

theorem chain_loop : ∀ (n k idx : Nat) (pr : List String) (summ : RecSummary),
    (∀ j, k ≤ j → aname j ∉ pr) →
    (rec_unpack_loop chain_env ["*"] true n idx ⟨[aname k], pr⟩ summ).1.files
      = [aname (k + n)] ∧
    (rec_unpack_loop chain_env ["*"] true n idx ⟨[aname k], pr⟩ summ).1.processed
      = pr ++ (List.range n).map (fun t => aname (k + t)) := by
  intro n
  induction n with
  | zero =>
    intro k idx pr summ _
    exact ⟨rfl, by rw [rec_unpack_loop]; simp⟩
  | succ n ih =>
    intro k idx pr summ h
    have hk : aname k ∉ pr := h k (le_refl k)
    have h' : ∀ j, k + 1 ≤ j → aname j ∉ pr ++ [aname k] := by
      intro j hj
      rw [List.mem_append]
      rintro (hp | hs)
      · exact h j (by omega) hp
      · rcases List.mem_singleton.mp hs with heq
        have := aname_inj heq
        omega
    rw [rec_unpack_loop]
    dsimp only
    rw [chain_candidates k pr hk, if_neg (List.cons_ne_nil _ _),
      chain_pass k idx pr]
    dsimp only
    obtain ⟨hf, hp⟩ := ih (k + 1) (idx + 1) (pr ++ [aname k])
      { passes := summ.passes ++ [⟨idx + 1, [aname k], []⟩]
        unpacked_count := summ.unpacked_count + 1
        error_count := summ.error_count + 0 } h'
    constructor
    · rw [hf, show k + 1 + n = k + (n + 1) from by omega]
    · rw [hp, List.append_assoc, List.range_succ_eq_map, List.map_cons,
        List.map_map]
      have hmaps : (List.range n).map (fun t => aname (k + 1 + t)) =
          (List.range n).map ((fun t => aname (k + t)) ∘ Nat.succ) := by
        apply List.map_congr_left
        intro t _
        show aname (k + 1 + t) = aname (k + (t + 1))
        rw [show k + 1 + t = k + (t + 1) from by omega]
      rw [hmaps]
      rfl

theorem rec_loop_passes_le (env : String → Except String (List String))
    (patterns : List String) (remove : Bool) :
    ∀ (n idx : Nat) (st : RecState) (summ : RecSummary),
    ((rec_unpack_loop env patterns remove n idx st summ).2).passes.length ≤
      summ.passes.length + n := by
  intro n
  induction n with
  | zero => intro idx st summ; exact Nat.le_add_right _ 0
  | succ n ih =>
    intro idx st summ
    rw [rec_unpack_loop]
    dsimp only
    by_cases hc : rec_candidates patterns st = []
    · rw [if_pos hc]
      exact Nat.le_add_right _ _
    · rw [if_neg hc]
      refine le_trans (ih _ _ _) ?_
      simp only [List.length_append, List.length_cons, List.length_nil]
      omega

theorem process_archive_files_nodup (env : String → Except String (List String))
    (remove : Bool) (henv : ∀ a l, env a = Except.ok l → l.Nodup)
    (acc : RecState × PassInfo × Nat × Nat) (a : String)
    (h : acc.1.files.Nodup) :
    (process_archive env remove acc a).1.files.Nodup ∧
    (process_archive env remove acc a).1.processed
      = acc.1.processed ++ [a] := by
  rw [process_archive]
  cases he : env a with
  | ok revealed =>
    dsimp only
    refine ⟨?_, rfl⟩
    have h1 : (if remove then acc.1.files.erase a else acc.1.files).Nodup := by
      cases remove
      · exact h
      · exact h.erase a
    rw [List.nodup_append]
    refine ⟨h1, List.Nodup.filter _ (henv a revealed he), ?_⟩
    intro x hx hx2
    have := (List.mem_filter.mp hx2).2
    rw [decide_eq_true_eq] at this
    exact this hx
  | error msg =>
    dsimp only
    exact ⟨h, rfl⟩

theorem rec_pass_invariant (env : String → Except String (List String))
    (remove : Bool) (henv : ∀ a l, env a = Except.ok l → l.Nodup) :
    ∀ (cands : List String) (acc : RecState × PassInfo × Nat × Nat),
    acc.1.files.Nodup →
    (cands.foldl (process_archive env remove) acc).1.files.Nodup ∧
    (cands.foldl (process_archive env remove) acc).1.processed
      = acc.1.processed ++ cands := by
  intro cands
  induction cands with
  | nil => intro acc h; exact ⟨h, (List.append_nil _).symm⟩
  | cons c t ih =>
    intro acc h
    rw [List.foldl_cons]
    have hp := process_archive_files_nodup env remove henv acc c h
    obtain ⟨ht1, ht2⟩ := ih (process_archive env remove acc c) hp.1
    refine ⟨ht1, ?_⟩
    rw [ht2, hp.2, List.append_assoc]
    rfl

theorem cand_not_processed (patterns : List String) (st : RecState) :
    ∀ c ∈ rec_candidates patterns st, c ∉ st.processed := by
  intro c hc
  rw [rec_candidates] at hc
  have h2 := (List.mem_filter.mp hc).2
  simp only [Bool.and_eq_true, decide_eq_true_eq] at h2
  exact h2.2

theorem rec_loop_nodup (env : String → Except String (List String))
    (patterns : List String) (remove : Bool)
    (henv : ∀ a l, env a = Except.ok l → l.Nodup) :
    ∀ (n idx : Nat) (st : RecState) (summ : RecSummary),
    st.files.Nodup → st.processed.Nodup →
    (rec_unpack_loop env patterns remove n idx st summ).1.processed.Nodup := by
  intro n
  induction n with
  | zero => intro idx st summ _ h2; exact h2
  | succ n ih =>
    intro idx st summ h1 h2
    rw [rec_unpack_loop]
    dsimp only
    by_cases hc : rec_candidates patterns st = []
    · rw [if_pos hc]
      exact h2
    · rw [if_neg hc]
      have hpass := rec_pass_invariant env remove henv
        (rec_candidates patterns st) (st, ⟨idx + 1, [], []⟩, 0, 0) h1
      apply ih
      · exact hpass.1
      · rw [show (rec_pass env remove idx st
            (rec_candidates patterns st)).1.processed
            = st.processed ++ rec_candidates patterns st from hpass.2]
        rw [List.nodup_append]
        refine ⟨h2, List.Nodup.filter _ h1, ?_⟩
        intro x hx hx2
        exact cand_not_processed patterns st x hx2 hx

/-- C7 (amended): the recursive multi-pass unpack performs at most
`max(1, max_passes)` passes (one pass runs even when `max_passes = 0`,
so the bound `max_passes` itself fails there), never processes the same
archive twice in a run, and on a chain of `N + 1` nested matching
archive layers with `max_passes = N ≥ 1` the innermost layer remains
unextracted: it is never processed and its archive file is still
present. -/
theorem C7_recursive_unpack_bounded :
    (∀ (env : String → Except String (List String)) (patterns : List String)
        (mp : Nat) (remove : Bool) (st : RecState),
      ((recursive_unpack env patterns mp remove st).2).passes.length ≤
        max 1 mp) ∧
    (∀ (env : String → Except String (List String)) (patterns : List String)
        (mp : Nat) (remove : Bool) (st : RecState),
      (∀ a l, env a = Except.ok l → l.Nodup) → st.files.Nodup →
      st.processed.Nodup →
      (recursive_unpack env patterns mp remove st).1.processed.Nodup) ∧
    (∀ N : Nat, 1 ≤ N →
      aname N ∉
        (recursive_unpack chain_env ["*"] N true ⟨[aname 0], []⟩).1.processed ∧
      (recursive_unpack chain_env ["*"] N true
        ⟨[aname 0], []⟩).1.files = [aname N]) := by
  refine ⟨?_, ?_, ?_⟩
  · intro env patterns mp remove st
    rw [recursive_unpack]
    by_cases hp : patterns = []
    · rw [if_pos hp]
      exact le_trans (Nat.zero_le _) (le_max_left 1 mp)
    · rw [if_neg hp]
      refine le_trans (rec_loop_passes_le env patterns remove _ 0 st ⟨[], 0, 0⟩)
        ?_
      simp
  · intro env patterns mp remove st henv h1 h2
    rw [recursive_unpack]
    by_cases hp : patterns = []
    · rw [if_pos hp]
      exact h2
    · rw [if_neg hp]
      exact rec_loop_nodup env patterns remove henv _ 0 st ⟨[], 0, 0⟩ h1 h2
  · intro N hN
    have hpat : ¬((["*"] : List String) = []) := by simp
    obtain ⟨hf, hpr⟩ := chain_loop N 0 0 []
      ⟨[], 0, 0⟩ (fun j _ => List.not_mem_nil _)
    constructor
    · rw [recursive_unpack, if_neg hpat, Nat.max_eq_right hN, hpr]
      simp only [List.nil_append]
      intro hmem
      obtain ⟨t, ht, heq⟩ := List.mem_map.mp hmem
      have : 0 + t = N := aname_inj heq
      have := List.mem_range.mp ht
      omega
    · rw [recursive_unpack, if_neg hpat, Nat.max_eq_right hN, hf,
        Nat.zero_add]

/-- Counterexample to C7 as stated: with `max_passes = 0` the loop still
runs one pass (`max(1, 0) = 1 > 0` passes are performed), and on a chain
of `0 + 1 = 1` nested layer the innermost layer is extracted rather than
left alone. -/
theorem C7_counterexample :
    ((recursive_unpack chain_env ["*"] 0 true ⟨[aname 0], []⟩).2).passes.length
      = 1 ∧
    aname 0 ∈
      (recursive_unpack chain_env ["*"] 0 true ⟨[aname 0], []⟩).1.processed := by
  decide

/-- Witness for C7 (amended): on a three-layer chain with
`max_passes = 2`, the innermost archive is never processed and is still
present afterwards. -/
theorem C7_witness :
    aname 2 ∉
      (recursive_unpack chain_env ["*"] 2 true ⟨[aname 0], []⟩).1.processed ∧
    (recursive_unpack chain_env ["*"] 2 true ⟨[aname 0], []⟩).1.files
      = [aname 2] :=
  C7_recursive_unpack_bounded.2.2 2 (by omega)

/-! ### Claim C3 -/

theorem py_starts_with_ne_empty {s p : String} (hp : p ≠ "")
    (h : py_starts_with s p = true) : s ≠ "" := by
  intro hs
  subst hs
  rw [py_starts_with, List.isPrefixOf_iff_prefix] at h
  have : p.data = [] := List.prefix_nil.mp h
  exact hp (String.ext this)

theorem asa_candidate_shape4 (p0 p1 p2 p3 : String)
    (h1 : py_starts_with p1 "science_goal.uid___" = true)
    (h2 : py_starts_with p2 "group.uid___" = true)
    (h3 : py_starts_with p3 "member.uid___" = true)
    (tail : List String) (ht : tail ≠ []) :
    asa_candidate ([p0, p1, p2, p3] ++ tail) = some [p0, p1, p2, p3] := by
  have hlen : ([p0, p1, p2, p3] ++ tail).length ≥ 5 := by
    have := List.length_pos.mpr ht
    simp only [List.length_append, List.length_cons, List.length_nil]
    omega
  rw [asa_candidate, if_pos hlen,
    show ([p0, p1, p2, p3] ++ tail).getD 1 "" = p1 from rfl,
    show ([p0, p1, p2, p3] ++ tail).getD 2 "" = p2 from rfl,
    show ([p0, p1, p2, p3] ++ tail).getD 3 "" = p3 from rfl,
    h1, h2, h3]
  rfl

theorem asa_candidate_shape3 (p0 p1 p2 : String)
    (h1 : py_starts_with p0 "science_goal.uid___" = true)
    (h2 : py_starts_with p1 "group.uid___" = true)
    (h3 : py_starts_with p2 "member.uid___" = true)
    (tail : List String) (ht : tail ≠ []) :
    asa_candidate ([p0, p1, p2] ++ tail)
      = if tail.length = 1 then some [p0, p1, p2] else none := by
  have htl := List.length_pos.mpr ht
  by_cases h5 : tail.length = 1
  · have hnot5 : ¬(([p0, p1, p2] ++ tail).length ≥ 5) := by
      simp only [List.length_append, List.length_cons, List.length_nil]
      omega
    have h4 : ([p0, p1, p2] ++ tail).length ≥ 4 := by
      simp only [List.length_append, List.length_cons, List.length_nil]
      omega
    rw [asa_candidate, if_neg hnot5, if_pos h4,
      show ([p0, p1, p2] ++ tail).getD 0 "" = p0 from rfl,
      show ([p0, p1, p2] ++ tail).getD 1 "" = p1 from rfl,
      show ([p0, p1, p2] ++ tail).getD 2 "" = p2 from rfl,
      h1, h2, h3, if_pos h5]
    rfl
  · have hlen5 : ([p0, p1, p2] ++ tail).length ≥ 5 := by
      simp only [List.length_append, List.length_cons, List.length_nil]
      omega
    have hfalse : py_starts_with p1 "science_goal.uid___" = false :=
      py_starts_with_ne_of_head (by decide) (by decide) (by decide) h2
    rw [asa_candidate, if_pos hlen5,
      show ([p0, p1, p2] ++ tail).getD 1 "" = p1 from rfl, hfalse,
      if_neg h5]
    rfl

theorem detect_go_some (pfx : List String) :
    ∀ (members : List TarMember),
    (∀ m ∈ members, asa_candidate (member_parts m.name) = none ∨
      asa_candidate (member_parts m.name) = some pfx) →
    detect_asa_go (some pfx) members = some pfx := by
  intro members
  induction members with
  | nil => intro _; rfl
  | cons m rest ih =>
    intro h
    rcases h m (List.mem_cons_self m rest) with hc | hc
    · rw [detect_asa_go, hc]
      exact ih (fun x hx => h x (List.mem_cons_of_mem m hx))
    · rw [detect_asa_go, hc]
      dsimp only
      rw [if_pos rfl]
      exact ih (fun x hx => h x (List.mem_cons_of_mem m hx))

theorem detect_go_none_of_witness (pfx : List String) :
    ∀ (members : List TarMember),
    (∀ m ∈ members, asa_candidate (member_parts m.name) = none ∨
      asa_candidate (member_parts m.name) = some pfx) →
    (∃ m ∈ members, asa_candidate (member_parts m.name) = some pfx) →
    detect_asa_go none members = some pfx := by
  intro members
  induction members with
  | nil =>
    intro _ hw
    obtain ⟨m, hm, _⟩ := hw
    cases hm
  | cons m rest ih =>
    intro h hw
    rcases h m (List.mem_cons_self m rest) with hc | hc
    · rw [detect_asa_go, hc]
      obtain ⟨m', hm', hc'⟩ := hw
      rcases List.mem_cons.mp hm' with rfl | hm''
      · rw [hc] at hc'
        cases hc'
      · exact ih (fun x hx => h x (List.mem_cons_of_mem m hx)) ⟨m', hm'', hc'⟩
    · rw [detect_asa_go, hc]
      exact detect_go_some pfx rest
        (fun x hx => h x (List.mem_cons_of_mem m hx))

theorem strip_parts_append (pfx tail : List String) (hp : pfx ≠ []) :
    strip_parts (pfx ++ tail) (some pfx) = tail := by
  rw [strip_parts, if_neg hp, if_pos ?hcond]
  case hcond =>
    rw [List.take_left]
    simp [List.length_append]
  rw [List.drop_left]

/-- C3 (amended): for a non-empty archive whose members all lie strictly
below a shared prefix matching the `science_goal.<uid>/group.<uid>/`
`member.<uid>` layout (with or without a leading project-code
component), the prefix is detected — provided, in the 3-component case,
that at least one member lies exactly one level below the prefix
(`_detect_asa_prefix` skips members of depth ≥ 5 when testing the
3-component pattern, so an archive whose members are all nested deeper
detects nothing) — and then extraction strips exactly that prefix from
every member path; when the unit's science-goal UID is unset or falsy or
ends in `unknown`, it is backfilled with the UID parsed from the
stripped science-goal component. -/
theorem C3_asa_detection_strip_backfill :
    (∀ (members : List TarMember) (pfx : List String),
      asa_pfx_shape pfx →
      members ≠ [] →
      (∀ m ∈ members, ∃ tail, tail ≠ [] ∧ member_parts m.name = pfx ++ tail) →
      (pfx.length = 3 → ∃ m ∈ members, (member_parts m.name).length = 4) →
      detect_asa_pfx members = some pfx ∧
      (∀ m ∈ members, strip_parts (member_parts m.name) (some pfx)
        = (member_parts m.name).drop pfx.length)) ∧
    (∀ (ids : ManifestIds) (pfx : List String) (u : String),
      asa_pfx_shape pfx →
      (opt_truthy ids.science_goal_uid = false ∨
        py_ends_with (py_str_of_opt ids.science_goal_uid) "unknown" = true) →
      uid_from_component (strip_pfx_components pfx).1 "science_goal" = some u →
      (backfill_uids ids pfx).science_goal_uid = some u) ∧
    uid_from_component "science_goal.uid___A001_X2d20_X3ca0" "science_goal"
      = some "uid://A001/X2d20/X3ca0" := by
  refine ⟨?_, ?_, by decide⟩
  · intro members pfx hshape hne hmem hwit
    have hpne : pfx ≠ [] := by
      rcases hshape with ⟨p0, p1, p2, p3, rfl, _⟩ | ⟨p0, p1, p2, rfl, _⟩ <;>
        simp
    have hcases : ∀ m ∈ members, asa_candidate (member_parts m.name) = none ∨
        asa_candidate (member_parts m.name) = some pfx := by
      intro m hm
      obtain ⟨tail, htne, hparts⟩ := hmem m hm
      rcases hshape with ⟨p0, p1, p2, p3, rfl, h1, h2, h3⟩ |
        ⟨p0, p1, p2, rfl, h1, h2, h3⟩
      · right
        rw [hparts]
        exact asa_candidate_shape4 p0 p1 p2 p3 h1 h2 h3 tail htne
      · rw [hparts, asa_candidate_shape3 p0 p1 p2 h1 h2 h3 tail htne]
        by_cases h5 : tail.length = 1
        · right
          rw [if_pos h5]
        · left
          rw [if_neg h5]
    have hdet : detect_asa_pfx members = some pfx := by
      rw [detect_asa_pfx]
      apply detect_go_none_of_witness pfx members hcases
      rcases hshape with ⟨p0, p1, p2, p3, rfl, h1, h2, h3⟩ |
        ⟨p0, p1, p2, rfl, h1, h2, h3⟩
      · obtain ⟨m, hm⟩ := List.exists_mem_of_ne_nil members hne
        obtain ⟨tail, htne, hparts⟩ := hmem m hm
        refine ⟨m, hm, ?_⟩
        rw [hparts]
        exact asa_candidate_shape4 p0 p1 p2 p3 h1 h2 h3 tail htne
      · obtain ⟨m, hm, hlen4⟩ := hwit rfl
        obtain ⟨tail, htne, hparts⟩ := hmem m hm
        refine ⟨m, hm, ?_⟩
        rw [hparts] at hlen4 ⊢
        rw [asa_candidate_shape3 p0 p1 p2 h1 h2 h3 tail htne]
        simp only [List.length_append, List.length_cons, List.length_nil]
          at hlen4
        rw [if_pos (by omega)]
    refine ⟨hdet, ?_⟩
    intro m hm
    obtain ⟨tail, htne, hparts⟩ := hmem m hm
    rw [hparts, strip_parts_append pfx tail hpne, List.drop_left]
  · intro ids pfx u hshape hunset hu
    have hsgne : (strip_pfx_components pfx).1 ≠ "" := by
      rcases hshape with ⟨p0, p1, p2, p3, rfl, h1, _, _⟩ |
        ⟨p0, p1, p2, rfl, h1, _, _⟩ <;>
        exact py_starts_with_ne_empty (by decide) h1
    have hguard : (!opt_truthy ids.science_goal_uid ||
        py_ends_with (py_str_of_opt ids.science_goal_uid) "unknown") = true := by
      rcases hunset with h | h
      · rw [h]
        rfl
      · rw [h, Bool.or_true]
    rw [backfill_uids, if_pos hsgne, hu]
    simp only [hguard, eq_self_iff_true, if_true]
    repeat' split
    all_goals rfl

/-- Counterexample to C3 as stated: an archive whose only member lies
below the shared 3-component ASA prefix at depth 5 — the members all
share the layout prefix, yet nothing is detected and extraction writes
the member's path unstripped. -/
theorem C3_counterexample :
    member_parts
        "science_goal.uid___A001_X1_X2/group.uid___A001_X1_X3/member.uid___A001_X1_X4/products/f.fits"
      = ["science_goal.uid___A001_X1_X2", "group.uid___A001_X1_X3",
         "member.uid___A001_X1_X4"] ++ ["products", "f.fits"] ∧
    detect_asa_pfx c3_members = none ∧
    (safe_extract c3_members ["d"] (detect_asa_pfx c3_members)).written
      = [["d", "science_goal.uid___A001_X1_X2", "group.uid___A001_X1_X3",
          "member.uid___A001_X1_X4", "products", "f.fits"]] := by
  decide

/-- Witness for C3 (amended): a 3-component-prefix archive with a member
at depth 4 detects the prefix, and the science-goal UID is backfilled
from the stripped component. -/
theorem C3_witness :
    detect_asa_pfx c3_good_members =
      some ["science_goal.uid___A001_X1_X2", "group.uid___A001_X1_X3",
        "member.uid___A001_X1_X4"] ∧
    (backfill_uids ⟨none, none, none⟩
        ["science_goal.uid___A001_X1_X2", "group.uid___A001_X1_X3",
         "member.uid___A001_X1_X4"]).science_goal_uid
      = some "uid://A001/X1/X2" := by
  constructor
  · refine (C3_asa_detection_strip_backfill.1 c3_good_members
      ["science_goal.uid___A001_X1_X2", "group.uid___A001_X1_X3",
       "member.uid___A001_X1_X4"]
      (Or.inr ⟨"science_goal.uid___A001_X1_X2", "group.uid___A001_X1_X3",
        "member.uid___A001_X1_X4", rfl, by decide, by decide, by decide⟩)
      (by decide) ?_ ?_).1
    · intro m hm
      rw [show c3_good_members =
        [⟨"science_goal.uid___A001_X1_X2/group.uid___A001_X1_X3/member.uid___A001_X1_X4/f.fits",
          TarKind.file⟩] from rfl, List.mem_singleton] at hm
      subst hm
      exact ⟨["f.fits"], by decide, by decide⟩
    · intro _
      exact ⟨⟨"science_goal.uid___A001_X1_X2/group.uid___A001_X1_X3/member.uid___A001_X1_X4/f.fits",
        TarKind.file⟩, by decide, by decide⟩
  · exact C3_asa_detection_strip_backfill.2.1 ⟨none, none, none⟩
      ["science_goal.uid___A001_X1_X2", "group.uid___A001_X1_X3",
       "member.uid___A001_X1_X4"] "uid://A001/X1/X2"
      (Or.inr ⟨"science_goal.uid___A001_X1_X2", "group.uid___A001_X1_X3",
        "member.uid___A001_X1_X4", rfl, by decide, by decide, by decide⟩)
      (Or.inl rfl) (by decide)

end AlmaBulk
